import Mathlib

/-!
Verification development for the Red King game-session core.

The definitions below are a shallow embedding of the server-side game logic
(roomManager module and the socket command handlers).  Mutable JavaScript
state is modelled by explicit state passing: every function that mutates the
room or game state in the source is a pure function returning the new state,
and every function that can bail out (returning null in the source) returns
an Option.  Socket emissions are not modelled: they never change the game
state.  Hands are association lists keyed by player id, mirroring the
object keyed by player id in the source; reads and writes use the first
occurrence of a key, which coincides with object semantics because keys are
unique in every state the server builds.
-/

namespace RedKing

/-- A playing card as built by createDeck: a suit string, a rank string and a
stable id string. -/
structure Card where
  suit : String
  rank : String
  id : String
deriving DecidableEq, Repr

/-- Suits used by createDeck, in source order. -/
def suits : List String := ["hearts", "diamonds", "clubs", "spades"]

/-- Ranks used by createDeck, in source order. -/
def ranks : List String := ["A", "2", "3", "4", "5", "6", "7", "8", "9", "10", "J", "Q", "K"]

/-- Deck construction: the 52 suit-rank cards in suit-major order followed by
the two distinct jokers, exactly as createDeck pushes them. -/
def createDeck : List Card :=
  (suits.flatMap fun s => ranks.map fun r => { suit := s, rank := r, id := s ++ "-" ++ r })
    ++ [{ suit := "joker", rank := "Joker", id := "joker-1" },
        { suit := "joker", rank := "Joker", id := "joker-2" }]

/-- Numeric value of a rank string as parseInt computes it on the rank
strings that reach the final branch of getCardPoints ("2" through "10"); any
other string would be NaN in the source and never occurs for a deck card
(modelled as 0). -/
def parseIntRank (r : String) : Int :=
  if r = "2" then 2 else if r = "3" then 3 else if r = "4" then 4
  else if r = "5" then 5 else if r = "6" then 6 else if r = "7" then 7
  else if r = "8" then 8 else if r = "9" then 9 else if r = "10" then 10
  else 0

/-- Point value of a card (getCardPoints): Joker 0, Ace 1, red King -1,
black King 10, J and Q 10, numeric ranks their face value. -/
def getCardPoints (c : Card) : Int :=
  if c.suit = "joker" then 0
  else if c.rank = "A" then 1
  else if c.rank = "K" ∧ (c.suit = "hearts" ∨ c.suit = "diamonds") then -1
  else if c.rank = "K" then 10
  else if c.rank = "J" ∨ c.rank = "Q" then 10
  else parseIntRank c.rank

/-- A hand is an ordered list of slots; a slot holds a card or is a gap
(null in the source). -/
abbrev Hand : Type := List (Option Card)

/-- Score of a hand (getPlayerScore): sum of point values over non-gap
slots, gaps skipped. -/
def getPlayerScore (hand : Hand) : Int :=
  hand.foldl (fun sum c => match c with | none => sum | some card => sum + getCardPoints card) 0

/-- Rule availability of a drawn card (canUseRule): rank 7 through 10 or a
face card.  parseInt of a non-numeric rank is NaN in the source, failing
both comparisons, so only the string ranks "7" through "10" pass the
numeric test. -/
def canUseRule (c : Card) : Bool :=
  (7 ≤ parseIntRank c.rank ∧ parseIntRank c.rank ≤ 10)
    ∨ (c.rank = "J" ∨ c.rank = "Q" ∨ c.rank = "K")

/-- Rule classification of a card (getRuleType). -/
def getRuleType (c : Card) : Option String :=
  if c.rank = "7" ∨ c.rank = "8" then some "peek-own"
  else if c.rank = "9" ∨ c.rank = "10" then some "peek-other"
  else if c.rank = "J" ∨ c.rank = "Q" then some "blind-switch"
  else if c.rank = "K" ∧ (c.suit = "clubs" ∨ c.suit = "spades") then some "black-king"
  else none

/-- A room member (the fields created by createRoom and joinRoom). -/
structure Player where
  id : String
  name : String
  isHost : Bool
deriving DecidableEq, Repr

/-- The per-room game state created by dealCards.  redKingCaller,
redemptionOrder and redemptionIndex are absent (undefined) until
callRedKing sets them, modelled by the defaults.  The discard pile holds
Option Card because giveCardAfterMatch can push the content of a gap slot
(null) onto it; every other push is a real card. -/
structure GameState where
  deck : List Card
  hands : List (String × Hand)
  phase : String
  peekDone : List String
  turnOrder : List String
  turnIndex : Nat
  discardPile : List (Option Card)
  drawnCard : Option Card
  drawnBy : Option String
  redKingCaller : Option String := none
  redemptionOrder : Option (List String) := none
  redemptionIndex : Nat := 0
deriving DecidableEq, Repr

/-- A room record. -/
structure Room where
  code : String
  hostId : String
  players : List Player
  state : String
  gameState : Option GameState := none
deriving DecidableEq, Repr

/-- Read the hand of a player from the hands mapping (hands a playerId b in
the source); first occurrence of the key. -/
def lookupHand : List (String × Hand) → String → Option Hand
  | [], _ => none
  | (k, h) :: rest, p => if k = p then some h else lookupHand rest p

/-- Overwrite one slot of one player's hand in the hands mapping, leaving
everything else untouched (hand index assignment in the source). -/
def updateSlot : List (String × Hand) → String → Nat → Option Card → List (String × Hand)
  | [], _, _, _ => []
  | (k, h) :: rest, p, i, v =>
    if k = p then (k, h.set i v) :: rest else (k, h) :: updateSlot rest p i v

/-- Replace a player's whole hand in the hands mapping. -/
def setHand : List (String × Hand) → String → Hand → List (String × Hand)
  | [], _, _ => []
  | (k, h) :: rest, p, h2 => if k = p then (k, h2) :: rest else (k, h) :: setHand rest p h2

/-- Delete a player's entry from the hands mapping (the delete statement in
leaveRoom). -/
def removeHand : List (String × Hand) → String → List (String × Hand)
  | [], _ => []
  | (k, h) :: rest, p => if k = p then rest else (k, h) :: removeHand rest p

/-- Content of one slot of one player's hand, none when the player or the
index is missing or the slot is a gap. -/
def getSlot (hs : List (String × Hand)) (p : String) (i : Nat) : Option Card :=
  match lookupHand hs p with
  | none => none
  | some h => (h[i]?).join

/-- The player whose turn it is (getCurrentTurnPlayer): during redemption
with a built redemption order, index into it; otherwise index into the turn
order.  An out-of-range index is undefined in the source and none here. -/
def getCurrentTurnPlayer (gs : GameState) : Option String :=
  if gs.phase = "redemption" then
    match gs.redemptionOrder with
    | some ro => ro[gs.redemptionIndex]?
    | none => gs.turnOrder[gs.turnIndex]?
  else gs.turnOrder[gs.turnIndex]?

/-- Draw a card (drawCard): only for the current turn player, only when no
card is already drawn, and only from a non-empty deck; pops the last deck
element into drawnCard. -/
def drawCard (gs : GameState) (pid : String) : Option (Card × GameState) :=
  if getCurrentTurnPlayer gs ≠ some pid then none
  else if gs.drawnCard.isSome then none
  else
    match gs.deck.getLast? with
    | none => none
    | some card =>
      some (card, { gs with deck := gs.deck.dropLast, drawnCard := some card,
                            drawnBy := some pid })

/-- Keep the drawn card (keepCard): swap it with a non-gap slot of the
drawer's own hand, pushing the replaced card on the discard pile and
clearing the drawn state.  Returns the discarded card.  A negative index is
rejected in the source; indices are naturals here so that guard is
vacuous. -/
def keepCard (gs : GameState) (pid : String) (handIndex : Nat) : Option (Card × GameState) :=
  if gs.drawnBy ≠ some pid then none
  else
    match gs.drawnCard with
    | none => none
    | some dc =>
      match lookupHand gs.hands pid with
      | none => none
      | some hand =>
        if handIndex < hand.length then
          match (hand[handIndex]?).join with
          | none => none
          | some discarded =>
            some (discarded, { gs with
              hands := updateSlot gs.hands pid handIndex (some dc),
              discardPile := gs.discardPile ++ [some discarded],
              drawnCard := none, drawnBy := none })
        else none

/-- Discard the drawn card (discardDrawnCard): push it on the discard pile
and clear the drawn state. -/
def discardDrawnCard (gs : GameState) (pid : String) : Option (Card × GameState) :=
  if gs.drawnBy ≠ some pid then none
  else
    match gs.drawnCard with
    | none => none
    | some card =>
      some (card, { gs with discardPile := gs.discardPile ++ [some card],
                            drawnCard := none, drawnBy := none })

/-- Blind switch (blindSwitch): exchange the cards at two in-bounds non-gap
slots of two (possibly equal) players.  The source swaps through a
temporary on the live arrays; the two sequential slot writes below, with
the two values read from the original state, reproduce that, including the
aliased case where both slots belong to the same player. -/
def blindSwitch (gs : GameState) (pA : String) (iA : Nat) (pB : String) (iB : Nat) :
    Option GameState :=
  match lookupHand gs.hands pA, lookupHand gs.hands pB with
  | some handA, some handB =>
    if iA < handA.length then
      if iB < handB.length then
        match (handA[iA]?).join, (handB[iB]?).join with
        | some cA, some cB =>
          some { gs with hands := updateSlot (updateSlot gs.hands pA iA (some cB)) pB iB (some cA) }
        | _, _ => none
      else none
    else none
  | _, _ => none

/-- Peek at two cards (blackKingPeek): pure read, returns the two cards when
both slots are in bounds and non-gap. -/
def blackKingPeek (gs : GameState) (p1 : String) (i1 : Nat) (p2 : String) (i2 : Nat) :
    Option (Card × Card) :=
  match lookupHand gs.hands p1, lookupHand gs.hands p2 with
  | some h1, some h2 =>
    if i1 < h1.length then
      if i2 < h2.length then
        match (h1[i1]?).join, (h2[i2]?).join with
        | some c1, some c2 => some (c1, c2)
        | _, _ => none
      else none
    else none
  | _, _ => none

/-- Place a card into a hand (addCardToHand): write into the first gap if
one exists, else append; returns the new hand and the index written.  The
card argument is an Option because giveCardAfterMatch can pass the content
of a freshly emptied aliased slot (null in the source); every other caller
passes a real card. -/
def addCardToHand (hand : Hand) (card : Option Card) : Hand × Nat :=
  match hand.findIdx? (fun c => c = none) with
  | some emptyIndex => (hand.set emptyIndex card, emptyIndex)
  | none => (hand ++ [card], hand.length)

/-- Advance the play-phase turn (advanceTurn): increment the turn index
modulo the turn order length and clear the drawn state.  The source
computes a NaN index for an empty turn order, a situation no reachable
state produces; the card content of the state is unaffected either way. -/
def advanceTurn (gs : GameState) : GameState :=
  { gs with turnIndex := (gs.turnIndex + 1) % gs.turnOrder.length,
            drawnCard := none, drawnBy := none }

/-- Top of the discard pile (getTopDiscard): the last element when the pile
is non-empty.  The source returns that element directly, which can itself
be null; callers treat null and undefined alike, so the two cases are
flattened into none. -/
def getTopDiscard (gs : GameState) : Option Card :=
  (gs.discardPile.getLast?).join

/-- Rank equality of two possibly-null cards (cardsMatchByRank). -/
def cardsMatchByRank (a b : Option Card) : Bool :=
  match a, b with
  | some x, some y => x.rank = y.rank
  | _, _ => false

/-- Result record of callMatchOwn.  The success branch of the source has no
penaltyCard field, modelled as none. -/
structure MatchOwnResult where
  success : Bool
  card : Card
  penaltyCard : Option Card
deriving DecidableEq, Repr

/-- Call match on an own card (callMatchOwn): needs a top discard and an
in-bounds non-gap slot.  On a rank match the slot becomes a gap and the
card is discarded; otherwise a penalty card is popped from the deck into
the hand when the deck is non-empty, and nothing changes when it is
empty. -/
def callMatchOwn (gs : GameState) (callerId : String) (handIndex : Nat) :
    Option (MatchOwnResult × GameState) :=
  match getTopDiscard gs with
  | none => none
  | some topDiscard =>
    match lookupHand gs.hands callerId with
    | none => none
    | some hand =>
      if handIndex < hand.length then
        match (hand[handIndex]?).join with
        | none => none
        | some revealedCard =>
          if cardsMatchByRank (some revealedCard) (some topDiscard) then
            some ({ success := true, card := revealedCard, penaltyCard := none },
              { gs with hands := updateSlot gs.hands callerId handIndex none,
                        discardPile := gs.discardPile ++ [some revealedCard] })
          else
            match gs.deck.getLast? with
            | some penaltyCard =>
              some ({ success := false, card := revealedCard, penaltyCard := some penaltyCard },
                { gs with deck := gs.deck.dropLast,
                          hands := setHand gs.hands callerId
                            (addCardToHand hand (some penaltyCard)).1 })
            | none =>
              some ({ success := false, card := revealedCard, penaltyCard := none }, gs)
      else none

/-- Result record of callMatchOther.  targetIndex is only meaningful on
success, penaltyCard only on failure, mirroring the two source return
shapes. -/
structure MatchOtherResult where
  success : Bool
  card : Card
  penaltyCard : Option Card
  targetIndex : Nat
deriving DecidableEq, Repr

/-- Call match on another player's card (callMatchOther): on a rank match
nothing is mutated yet (the give-card step follows); otherwise the caller
takes a penalty card from the deck when one is available. -/
def callMatchOther (gs : GameState) (callerId targetPlayerId : String) (targetIndex : Nat) :
    Option (MatchOtherResult × GameState) :=
  match getTopDiscard gs with
  | none => none
  | some topDiscard =>
    match lookupHand gs.hands targetPlayerId with
    | none => none
    | some targetHand =>
      if targetIndex < targetHand.length then
        match (targetHand[targetIndex]?).join with
        | none => none
        | some revealedCard =>
          if cardsMatchByRank (some revealedCard) (some topDiscard) then
            some ({ success := true, card := revealedCard, penaltyCard := none,
                    targetIndex := targetIndex }, gs)
          else
            match lookupHand gs.hands callerId with
            | none => none
            | some callerHand =>
              match gs.deck.getLast? with
              | some penaltyCard =>
                some ({ success := false, card := revealedCard,
                        penaltyCard := some penaltyCard, targetIndex := targetIndex },
                  { gs with deck := gs.deck.dropLast,
                            hands := setHand gs.hands callerId
                              (addCardToHand callerHand (some penaltyCard)).1 })
              | none =>
                some ({ success := false, card := revealedCard, penaltyCard := none,
                        targetIndex := targetIndex }, gs)
      else none

/-- Result record of giveCardAfterMatch. -/
structure GiveCardResult where
  matchedCard : Option Card
  givenCard : Option Card
  placedIndex : Nat
deriving DecidableEq, Repr

/-- Give a card after a successful match-other (giveCardAfterMatch): the
matched target slot becomes a gap and its content is pushed on the discard
pile, then the caller's slot becomes a gap and its content is placed into
the target's hand.  The source performs these writes sequentially on the
live arrays; the reads below go through the part-way updated mapping to
reproduce that, including the caller-equals-target aliased case.  The
matched slot is not checked for being a gap, so matchedCard can be none
(the source then pushes null on the pile). -/
def giveCardAfterMatch (gs : GameState) (callerId : String) (callerHandIndex : Nat)
    (targetPlayerId : String) (targetIndex : Nat) : Option (GiveCardResult × GameState) :=
  match lookupHand gs.hands callerId, lookupHand gs.hands targetPlayerId with
  | some callerHand, some targetHand =>
    if callerHandIndex < callerHand.length then
      match (callerHand[callerHandIndex]?).join with
      | none => none
      | some _ =>
        if targetIndex < targetHand.length then
          let matchedCard : Option Card := (targetHand[targetIndex]?).join
          let hands1 := updateSlot gs.hands targetPlayerId targetIndex none
          let givenCard : Option Card := getSlot hands1 callerId callerHandIndex
          let hands2 := updateSlot hands1 callerId callerHandIndex none
          match lookupHand hands2 targetPlayerId with
          | none => none
          | some targetHand2 =>
            let placed := addCardToHand targetHand2 givenCard
            some ({ matchedCard := matchedCard, givenCard := givenCard,
                    placedIndex := placed.2 },
              { gs with hands := setHand hands2 targetPlayerId placed.1,
                        discardPile := gs.discardPile ++ [matchedCard] })
        else none
    else none
  | _, _ => none

/-- Call Red King (callRedKing): only in the play phase, on the caller's
turn, with no drawn card.  Sets the caller and the redemption phase, builds
the redemption order by walking the turn order from the slot after the
caller (modulo the length) for length-minus-one steps, and resets the
redemption index and the drawn state. -/
def callRedKing (gs : GameState) (playerId : String) : Option GameState :=
  if gs.phase ≠ "play" then none
  else if getCurrentTurnPlayer gs ≠ some playerId then none
  else if gs.drawnCard.isSome then none
  else
    let callerIdx := gs.turnOrder.indexOf playerId
    let n := gs.turnOrder.length
    let redemptionOrder :=
      (List.range (n - 1)).map (fun i => gs.turnOrder.getD ((callerIdx + (i + 1)) % n) "")
    some { gs with redKingCaller := some playerId, phase := "redemption",
                   redemptionOrder := some redemptionOrder, redemptionIndex := 0,
                   drawnCard := none, drawnBy := none }

/-- Advance the redemption turn (advanceRedemptionTurn): bump the index and
clear the drawn state; when the index passes the end of the redemption
order, the phase becomes reveal.  The source reads the length of the
redemption order unconditionally and would crash were it unset (modelled as
none). -/
def advanceRedemptionTurn (gs : GameState) : Option GameState :=
  if gs.phase ≠ "redemption" then none
  else
    match gs.redemptionOrder with
    | none => none
    | some ro =>
      if gs.redemptionIndex + 1 ≥ ro.length then
        some { gs with redemptionIndex := gs.redemptionIndex + 1,
                       drawnCard := none, drawnBy := none, phase := "reveal" }
      else
        some { gs with redemptionIndex := gs.redemptionIndex + 1,
                       drawnCard := none, drawnBy := none }

/-- One row of getGameResults output. -/
structure PlayerResult where
  id : String
  name : String
  hand : List Card
  score : Int
  isCaller : Bool
deriving DecidableEq, Repr

/-- Full getGameResults output. -/
structure GameResults where
  results : List PlayerResult
  winnerId : String
  winnerName : String
  callerId : Option String
  callerName : String
deriving DecidableEq, Repr

/-- The rows getGameResults builds before sorting: one per room player that
still has a hand, scored by getPlayerScore. -/
def resultRows (players : List Player) (gs : GameState) : List PlayerResult :=
  players.filterMap (fun p =>
    (lookupHand gs.hands p.id).map (fun hand =>
      ({ id := p.id, name := p.name, hand := hand.filterMap id,
         score := getPlayerScore hand, isCaller := gs.redKingCaller = some p.id } : PlayerResult)))

/-- Winner selection of getGameResults over the sorted rows, whose head is
first: the single lowest scorer, or among tied lowest scorers the first
tied non-caller when one exists, the head of the tie otherwise. -/
def winnerIdOf (callerId : Option String) (sorted : List PlayerResult)
    (first : PlayerResult) : String :=
  let playersWithLowest := sorted.filter (fun r => r.score = first.score)
  if playersWithLowest.length = 1 then (playersWithLowest.headD first).id
  else
    match playersWithLowest.filter (fun r => ¬ (callerId = some r.id)) with
    | w :: _ => w.id
    | [] => (playersWithLowest.headD first).id

/-- Final scores and winner (getGameResults).  Rows are sorted by score
ascending with a stable sort; the source uses the runtime's stable Array
sort and a stable sort's output is uniquely determined by the comparator,
so the structurally recursive insertion sort here produces the same list.
The source crashes on an empty results array (reading the first element),
modelled as none. -/
def getGameResults (players : List Player) (gs : GameState) : Option GameResults :=
  match (resultRows players gs).insertionSort (fun a b => a.score ≤ b.score) with
  | [] => none
  | first :: rest =>
    some { results := first :: rest,
           winnerId := winnerIdOf gs.redKingCaller (first :: rest) first,
           winnerName := (((first :: rest).find?
               (fun r => r.id = winnerIdOf gs.redKingCaller (first :: rest) first)).map
             (fun r => r.name)).getD "Unknown",
           callerId := gs.redKingCaller,
           callerName := (((first :: rest).find?
               (fun r => gs.redKingCaller = some r.id)).map (fun r => r.name)).getD "Unknown" }

instance : IsTotal PlayerResult (fun a b => a.score ≤ b.score) :=
  ⟨fun a b => le_total a.score b.score⟩

instance : IsTrans PlayerResult (fun a b => a.score ≤ b.score) :=
  ⟨fun _ _ _ hab hbc => le_trans hab hbc⟩

/-- Create a room (createRoom): a waiting room holding only the host.  Code
generation is random in the source; the code is a parameter here.  The
registry insertion is not modelled: every operation below acts on the room
the registry would have resolved. -/
def createRoom (code hostSocketId hostName : String) : Room :=
  { code := code, hostId := hostSocketId,
    players := [{ id := hostSocketId, name := hostName, isHost := true }],
    state := "waiting" }

/-- Result of joinRoom: an error message or the updated room. -/
inductive JoinResult where
  | failure (error : String)
  | success (room : Room)
deriving DecidableEq, Repr

/-- Join a room (joinRoom): fails on a missing room, a game in progress, a
full room, a duplicate name or a duplicate socket id; otherwise appends the
player. -/
def joinRoom (found : Option Room) (socketId playerName : String) : JoinResult :=
  match found with
  | none => .failure "Room not found"
  | some room =>
    if room.state = "playing" then .failure "Game is already in progress"
    else if 8 ≤ room.players.length then .failure "Room is full"
    else if room.players.any (fun p => p.name = playerName) then
      .failure "Name already taken in this room"
    else if room.players.any (fun p => p.id = socketId) then
      .failure "You are already in this room"
    else .success { room with players :=
      room.players ++ [{ id := socketId, name := playerName, isHost := false }] }

/-- Leave a room (leaveRoom), for a socket id mapped to this room: remove
the player, delete the room when it empties (none), promote the first
remaining player when the host left, and when a game is running delete the
leaver's hand and peek mark, filter them out of the turn order and clamp an
overflowing turn index to 0. -/
def leaveRoom (room : Room) (socketId : String) : Option Room :=
  match room.players.findIdx? (fun p => p.id = socketId) with
  | none => some room
  | some playerIndex =>
    match room.players[playerIndex]? with
    | none => some room
    | some leaver =>
      let players1 := room.players.eraseIdx playerIndex
      if players1 = [] then none
      else
        let players2 :=
          if leaver.isHost then
            match players1 with
            | p :: rest => { p with isHost := true } :: rest
            | [] => []
          else players1
        let hostId :=
          if leaver.isHost then
            match players2 with
            | p :: _ => p.id
            | [] => room.hostId
          else room.hostId
        let gameState := room.gameState.map (fun gst =>
          let newOrder := gst.turnOrder.filter (fun x => ¬ (x = socketId))
          { gst with hands := removeHand gst.hands socketId,
                     peekDone := gst.peekDone.filter (fun x => ¬ (x = socketId)),
                     turnOrder := newOrder,
                     turnIndex := if newOrder.length ≤ gst.turnIndex then 0 else gst.turnIndex })
        some { room with players := players2, hostId := hostId, gameState := gameState }

/-- Deal four cards to each player in room order from the front of the
shuffled deck (the splice loop in dealCards). -/
def dealHands : List Player → List Card → List (String × Hand) × List Card
  | [], deck => ([], deck)
  | p :: ps, deck =>
    let rest := dealHands ps (deck.drop 4)
    ((p.id, ((deck.take 4).map some : List (Option Card))) :: rest.1, rest.2)

/-- Start a game (dealCards): deal hands from a shuffled deck, rotate the
turn order by one so the player after the host goes first, and install the
fresh game state.  Shuffling is random in the source; the shuffled deck is
a parameter here. -/
def dealCards (room : Room) (shuffled : List Card) : Room :=
  let dealt := dealHands room.players shuffled
  let turnOrder0 := room.players.map (fun p => p.id)
  let turnOrder :=
    if 1 < turnOrder0.length then turnOrder0.drop 1 ++ turnOrder0.take 1 else turnOrder0
  { room with gameState := some {
      deck := dealt.2, hands := dealt.1, phase := "peek", peekDone := [],
      turnOrder := turnOrder, turnIndex := 0, discardPile := [],
      drawnCard := none, drawnBy := none } }

/-- Handler guard isPlayablePhase: play or redemption. -/
def isPlayablePhase (gs : GameState) : Bool :=
  gs.phase = "play" ∨ gs.phase = "redemption"

/-- Handler guard isProtectedPlayer: the Red King caller during
redemption. -/
def isProtectedPlayer (gs : GameState) (pid : String) : Bool :=
  gs.phase = "redemption" ∧ gs.redKingCaller = some pid

/-- Turn advance shared by the handlers (advanceAndEmit): during redemption
advance the redemption turn (possibly entering reveal), otherwise advance
the play turn. -/
def advanceAndEmitState (gs : GameState) : GameState :=
  if gs.phase = "redemption" then (advanceRedemptionTurn gs).getD gs
  else advanceTurn gs

/-- The draw-card handler: guarded by a playable phase; a failed draw
(including an empty deck) returns without touching the state and without
advancing the turn. -/
def handleDrawCard (gs : GameState) (pid : String) : GameState :=
  if isPlayablePhase gs then
    match drawCard gs pid with
    | none => gs
    | some r => r.2
  else gs

/-- The keep-card handler: delegate to keepCard, then advance the turn on
success. -/
def handleKeepCard (gs : GameState) (pid : String) (handIndex : Nat) : GameState :=
  match keepCard gs pid handIndex with
  | none => gs
  | some r => advanceAndEmitState r.2

/-- The discard-card handler: discard the drawn card; when it carries a
rule the turn is not advanced (the rule command follows), otherwise the
turn advances. -/
def handleDiscardCard (gs : GameState) (pid : String) : GameState :=
  match gs.drawnCard with
  | none => gs
  | some drawn =>
    match discardDrawnCard gs pid with
    | none => gs
    | some r =>
      if canUseRule drawn ∧ (getRuleType drawn).isSome then r.2
      else advanceAndEmitState r.2

/-- The skip-rule handler: advances the turn with no further checks. -/
def handleSkipRule (gs : GameState) : GameState :=
  advanceAndEmitState gs

/-- The finish-peek handler: advances the turn with no further checks. -/
def handleFinishPeek (gs : GameState) : GameState :=
  advanceAndEmitState gs

/-- The use-black-king-skip handler: advances the turn. -/
def handleBlackKingSkip (gs : GameState) : GameState :=
  advanceAndEmitState gs

/-- The use-blind-switch handler: refuses to touch a protected player's
hand, then performs the switch and advances the turn on success. -/
def handleUseBlindSwitch (gs : GameState) (pA : String) (iA : Nat) (pB : String) (iB : Nat) :
    GameState :=
  if isProtectedPlayer gs pA ∨ isProtectedPlayer gs pB then gs
  else
    match blindSwitch gs pA iA pB iB with
    | none => gs
    | some gs2 => advanceAndEmitState gs2

/-- The use-black-king-switch handler: same state effect as the
use-blind-switch handler. -/
def handleUseBlackKingSwitch (gs : GameState) (pA : String) (iA : Nat) (pB : String) (iB : Nat) :
    GameState :=
  if isProtectedPlayer gs pA ∨ isProtectedPlayer gs pB then gs
  else
    match blindSwitch gs pA iA pB iB with
    | none => gs
    | some gs2 => advanceAndEmitState gs2

/-- The call-match-own handler: guarded by a playable phase and by the
caller not being the protected Red King caller; never advances the turn. -/
def handleCallMatchOwn (gs : GameState) (pid : String) (handIndex : Nat) : GameState :=
  if isPlayablePhase gs then
    if isProtectedPlayer gs pid then gs
    else
      match callMatchOwn gs pid handIndex with
      | none => gs
      | some r => r.2
  else gs

/-- The call-match-other handler: guarded by a playable phase and by
neither the target nor the caller being protected; never advances the
turn. -/
def handleCallMatchOther (gs : GameState) (pid target : String) (handIndex : Nat) : GameState :=
  if isPlayablePhase gs then
    if isProtectedPlayer gs target then gs
    else if isProtectedPlayer gs pid then gs
    else
      match callMatchOther gs pid target handIndex with
      | none => gs
      | some r => r.2
  else gs

/-- The give-card-after-match handler: blocks a protected target, then
delegates to giveCardAfterMatch.  The source has no playable-phase guard
and no guard on the giver being the protected caller. -/
def handleGiveCardAfterMatch (gs : GameState) (pid : String) (callerHandIndex : Nat)
    (target : String) (targetIndex : Nat) : GameState :=
  if isProtectedPlayer gs target then gs
  else
    match giveCardAfterMatch gs pid callerHandIndex target targetIndex with
    | none => gs
    | some r => r.2

/-- The call-red-king handler: guarded by the play phase, then delegates to
callRedKing. -/
def handleCallRedKing (gs : GameState) (pid : String) : GameState :=
  if gs.phase = "play" then (callRedKing gs pid).getD gs else gs

/-- The state-mutating core of the blind-switch branch of
BotPlayer._executeRule: the bot invokes blindSwitch directly on its chosen
targets with no protected-player guard (unlike the use-blind-switch
handler).  Memory invalidation and socket emissions do not touch the game
state; the subsequent opportunistic bot matching never touches the
protected caller's hand and the turn advance touches no hand. -/
def botBlindSwitchStep (gs : GameState) (pA : String) (iA : Nat) (pB : String) (iB : Nat) :
    GameState :=
  match blindSwitch gs pA iA pB iB with
  | none => gs
  | some gs2 => gs2

/-- The gameplay command surface of the session controller, one constructor
per state-mutating socket command of a started game (the pure peek reads
are omitted: they never change the state). -/
inductive GameCmd where
  | drawCardCmd (pid : String)
  | keepCardCmd (pid : String) (handIndex : Nat)
  | discardCardCmd (pid : String)
  | skipRuleCmd
  | finishPeekCmd
  | blackKingSkipCmd
  | useBlindSwitchCmd (pA : String) (iA : Nat) (pB : String) (iB : Nat)
  | useBlackKingSwitchCmd (pA : String) (iA : Nat) (pB : String) (iB : Nat)
  | callMatchOwnCmd (pid : String) (handIndex : Nat)
  | callMatchOtherCmd (pid target : String) (handIndex : Nat)
  | giveCardCmd (pid : String) (callerHandIndex : Nat) (target : String) (targetIndex : Nat)
  | callRedKingCmd (pid : String)
deriving DecidableEq, Repr

/-- Dispatch of the session controller over the gameplay commands.  An
invalid command is silently dropped, leaving the state unchanged, exactly
as every handler returns early. -/
def applyCmd (cmd : GameCmd) (gs : GameState) : GameState :=
  match cmd with
  | .drawCardCmd pid => handleDrawCard gs pid
  | .keepCardCmd pid i => handleKeepCard gs pid i
  | .discardCardCmd pid => handleDiscardCard gs pid
  | .skipRuleCmd => handleSkipRule gs
  | .finishPeekCmd => handleFinishPeek gs
  | .blackKingSkipCmd => handleBlackKingSkip gs
  | .useBlindSwitchCmd pA iA pB iB => handleUseBlindSwitch gs pA iA pB iB
  | .useBlackKingSwitchCmd pA iA pB iB => handleUseBlackKingSwitch gs pA iA pB iB
  | .callMatchOwnCmd pid i => handleCallMatchOwn gs pid i
  | .callMatchOtherCmd pid t i => handleCallMatchOther gs pid t i
  | .giveCardCmd pid ci t ti => handleGiveCardAfterMatch gs pid ci t ti
  | .callRedKingCmd pid => handleCallRedKing gs pid

/-- Cards actually present in a hand (the non-gap slots). -/
def handCards (h : Hand) : List Card :=
  h.filterMap id

/-- All cards held in the hands mapping. -/
def allHandCards (hs : List (String × Hand)) : List Card :=
  hs.flatMap (fun kv => handCards kv.2)

/-- The conserved quantity: the multiset of cards across the deck, all
hands, the discard pile and the drawn card. -/
def cardMultiset (gs : GameState) : Multiset Card :=
  (gs.deck : Multiset Card) + (allHandCards gs.hands : Multiset Card)
    + (gs.discardPile.filterMap id : Multiset Card) + (gs.drawnCard.toList : Multiset Card)

/-- A bot's memory of its own slots: the numeric-key entries of the memory
map, slot index to remembered card (this.known in the source). -/
def knownCard (memory : List (Nat × Card)) : Nat → Option Card :=
  fun i =>
    match memory.find? (fun kv => kv.1 = i) with
    | some kv => some kv.2
    | none => none

/-- The single pass of MediumBot.shouldCallRedKing over the hand: walk the
slots with their indices, skip gaps, and accumulate the known-slot count,
the known-slot point sum and the estimate, where an unknown non-gap slot
contributes 6 to the estimate. -/
def mediumLoop (memory : List (Nat × Card)) : Hand → Nat → Nat × Int × Int → Nat × Int × Int
  | [], _, acc => acc
  | none :: rest, i, acc => mediumLoop memory rest (i + 1) acc
  | some _ :: rest, i, acc =>
    match knownCard memory i with
    | some known =>
      mediumLoop memory rest (i + 1)
        (acc.1 + 1, acc.2.1 + getCardPoints known, acc.2.2 + getCardPoints known)
    | none => mediumLoop memory rest (i + 1) (acc.1, acc.2.1, acc.2.2 + 6)

/-- MediumBot.shouldCallRedKing on a hand the bot holds: call when at least
two slots are known, the known points sum to at most 5 and the estimate is
at most 8. -/
def mediumShouldCallRedKing (memory : List (Nat × Card)) (hand : Hand) : Bool :=
  let acc := mediumLoop memory hand 0 (0, 0, 0)
  2 ≤ acc.1 ∧ acc.2.1 ≤ 5 ∧ acc.2.2 ≤ 8

/-- Number of non-gap slots of the hand (from index i on) whose card the
bot remembers — the claim's notion of a known slot. -/
def knownSlotCount (memory : List (Nat × Card)) : Hand → Nat → Nat
  | [], _ => 0
  | none :: rest, i => knownSlotCount memory rest (i + 1)
  | some _ :: rest, i =>
    (if (knownCard memory i).isSome then 1 else 0) + knownSlotCount memory rest (i + 1)

/-- Sum of the point values of the remembered cards over the known non-gap
slots (from index i on). -/
def knownSlotSum (memory : List (Nat × Card)) : Hand → Nat → Int
  | [], _ => 0
  | none :: rest, i => knownSlotSum memory rest (i + 1)
  | some _ :: rest, i =>
    (match knownCard memory i with
     | some known => getCardPoints known
     | none => 0) + knownSlotSum memory rest (i + 1)

/-- The claim's total estimate (from index i on): a known non-gap slot
scores its remembered card's points and an unknown non-gap slot scores 6;
gaps score nothing. -/
def estimateSum (memory : List (Nat × Card)) : Hand → Nat → Int
  | [], _ => 0
  | none :: rest, i => estimateSum memory rest (i + 1)
  | some _ :: rest, i =>
    (match knownCard memory i with
     | some known => getCardPoints known
     | none => 6) + estimateSum memory rest (i + 1)

/-- Shorthand for a suit-rank card with its canonical id. -/
def cardOf (s r : String) : Card :=
  { suit := s, rank := r, id := s ++ "-" ++ r }

/-- Card multiset of a room, zero when no game is running. -/
def roomCardMultiset (room : Room) : Multiset Card :=
  match room.gameState with
  | some gs => cardMultiset gs
  | none => 0

/-- Concrete two-player play-phase state used to exercise blindSwitch. -/
def gsW7 : GameState :=
  { deck := [],
    hands := [("p1", [some (cardOf "spades" "A"), some (cardOf "hearts" "2")]),
              ("p2", [some (cardOf "clubs" "3")])],
    phase := "play", peekDone := [], turnOrder := ["p1", "p2"], turnIndex := 0,
    discardPile := [], drawnCard := none, drawnBy := none }

/-- Concrete state with a matching own card: top discard five of hearts,
hand slot 0 five of clubs. -/
def gsW6 : GameState :=
  { deck := [],
    hands := [("p1", [some (cardOf "clubs" "5"), some (cardOf "diamonds" "7")])],
    phase := "play", peekDone := [], turnOrder := ["p1"], turnIndex := 0,
    discardPile := [some (cardOf "hearts" "5")], drawnCard := none, drawnBy := none }

/-- The state callMatchOwn produces from gsW6 on the matching slot 0. -/
def gsW6match : GameState :=
  { deck := [],
    hands := [("p1", [none, some (cardOf "diamonds" "7")])],
    phase := "play", peekDone := [], turnOrder := ["p1"], turnIndex := 0,
    discardPile := [some (cardOf "hearts" "5"), some (cardOf "clubs" "5")],
    drawnCard := none, drawnBy := none }

/-- Concrete state with a wrong own match and an empty deck: top discard
five of hearts, hand slot 0 seven of clubs, no deck. -/
def gsW10 : GameState :=
  { deck := [],
    hands := [("p1", [some (cardOf "clubs" "7")])],
    phase := "play", peekDone := [], turnOrder := ["p1"], turnIndex := 0,
    discardPile := [some (cardOf "hearts" "5")], drawnCard := none, drawnBy := none }

/-- Concrete three-player play-phase state on the second player's turn. -/
def gsW4 : GameState :=
  { deck := [], hands := [],
    phase := "play", peekDone := [], turnOrder := ["p1", "p2", "p3"], turnIndex := 1,
    discardPile := [], drawnCard := none, drawnBy := none }

/-- The state callRedKing produces from gsW4 for caller p2. -/
def gsW4red : GameState :=
  { deck := [], hands := [],
    phase := "redemption", peekDone := [], turnOrder := ["p1", "p2", "p3"], turnIndex := 1,
    discardPile := [], drawnCard := none, drawnBy := none,
    redKingCaller := some "p2", redemptionOrder := some ["p3", "p1"], redemptionIndex := 0 }

/-- The two players of the reveal-phase tie scenario. -/
def playersW5 : List Player :=
  [{ id := "p1", name := "Alice", isHost := true },
   { id := "p2", name := "Bob", isHost := false }]

/-- Reveal-phase state where the Red King caller p1 and p2 both score 10. -/
def gsW5 : GameState :=
  { deck := [],
    hands := [("p1", [some (cardOf "spades" "10")]), ("p2", [some (cardOf "clubs" "10")])],
    phase := "reveal", peekDone := [], turnOrder := ["p2", "p1"], turnIndex := 0,
    discardPile := [], drawnCard := none, drawnBy := none,
    redKingCaller := some "p1", redemptionOrder := some ["p2"], redemptionIndex := 1 }

/-- The results record getGameResults produces for the tie scenario. -/
def resW5 : GameResults :=
  { results :=
      [{ id := "p1", name := "Alice", hand := [cardOf "spades" "10"], score := 10,
         isCaller := true },
       { id := "p2", name := "Bob", hand := [cardOf "clubs" "10"], score := 10,
         isCaller := false }],
    winnerId := "p2", winnerName := "Bob", callerId := some "p1", callerName := "Alice" }

/-- Redemption state with protected caller p1 and the bot bot-2 about to
execute a blind-switch rule targeting p1. -/
def gsB1 : GameState :=
  { deck := [],
    hands := [("p1", [some (cardOf "spades" "A")]), ("bot-2", [some (cardOf "clubs" "9")])],
    phase := "redemption", peekDone := [], turnOrder := ["p1", "bot-2"], turnIndex := 0,
    discardPile := [], drawnCard := none, drawnBy := none,
    redKingCaller := some "p1", redemptionOrder := some ["bot-2"], redemptionIndex := 0 }

/-- Play-phase state on p2's turn with an empty deck and no drawn card. -/
def gsB3 : GameState :=
  { deck := [],
    hands := [("p1", [some (cardOf "spades" "A")]), ("p2", [some (cardOf "clubs" "9")])],
    phase := "play", peekDone := [], turnOrder := ["p2", "p1"], turnIndex := 0,
    discardPile := [], drawnCard := none, drawnBy := none }

/-- A playing two-player room about to be dealt. -/
def roomC2 : Room :=
  { code := "ABCD", hostId := "p1",
    players := [{ id := "p1", name := "Alice", isHost := true },
                { id := "p2", name := "Bob", isHost := false }],
    state := "playing", gameState := none }

/-- The room of roomC2 right after dealing from the unshuffled deck. -/
def dealtRoomC2 : Room :=
  dealCards roomC2 createDeck

/-- A freshly created waiting room with host Alice. -/
def roomC8 : Room :=
  createRoom "WXYZ" "s1" "Alice"

/-- An untrimmed join name longer than twenty characters. -/
def nameC8 : String :=
  " this name is way over twenty characters long"

/-- The room roomC8 after Bob joins. -/
def roomC8b : Room :=
  { code := "WXYZ", hostId := "s1",
    players := [{ id := "s1", name := "Alice", isHost := true },
                { id := "s2", name := "Bob", isHost := false }],
    state := "waiting", gameState := none }

end RedKing

namespace RedKing

/-- Rule classification boundary checks from the spec's seed scenarios. -/
example :
    getRuleType { suit := "spades", rank := "K", id := "spades-K" } = some "black-king" ∧
    getRuleType { suit := "hearts", rank := "K", id := "hearts-K" } = none ∧
    getCardPoints { suit := "hearts", rank := "K", id := "hearts-K" } = -1 ∧
    getCardPoints { suit := "spades", rank := "K", id := "spades-K" } = 10 ∧
    getCardPoints { suit := "joker", rank := "Joker", id := "joker-1" } = 0 := by
  decide

/-- The constructed deck has 54 cards with pairwise distinct ids. -/
example : createDeck.length = 54 ∧ (createDeck.map (fun c => c.id)).Nodup := by
  decide

/-- Writing back the value already stored at an index leaves a list
unchanged. -/
theorem set_of_getElem_eq {α : Type _} (l : List α) (n : Nat) (a : α) (h : l[n]? = some a) :
    l.set n a = l := by
  apply List.ext_getElem?
  intro j
  by_cases hj : n = j
  · subst hj
    rw [List.getElem?_set_self (List.getElem?_eq_some.mp h).1, h]
  · rw [List.getElem?_set_ne hj]

/-- Reading the key just written. -/
theorem lookupHand_setHand_self (hs : List (String × Hand)) (p : String) (h2 : Hand) :
    lookupHand (setHand hs p h2) p = (lookupHand hs p).map (fun _ => h2) := by
  induction hs with
  | nil => rfl
  | cons kv rest ih =>
    by_cases hk : kv.1 = p
    · simp [setHand, lookupHand, hk]
    · simp [setHand, lookupHand, hk, ih]

/-- Reading a key other than the one written. -/
theorem lookupHand_setHand_ne (hs : List (String × Hand)) (p q : String) (h2 : Hand)
    (hqp : q ≠ p) : lookupHand (setHand hs p h2) q = lookupHand hs q := by
  have hpq : p ≠ q := fun h => hqp h.symm
  induction hs with
  | nil => rfl
  | cons kv rest ih =>
    by_cases hk : kv.1 = p
    · have : kv.1 ≠ q := by rw [hk]; exact hpq
      simp [setHand, lookupHand, hk, this, hpq]
    · by_cases hq : kv.1 = q
      · simp [setHand, lookupHand, hk, hq, hqp]
      · simp [setHand, lookupHand, hk, hq, ih]

/-- Two writes to the same key collapse to the second. -/
theorem setHand_setHand_self (hs : List (String × Hand)) (p : String) (h1 h2 : Hand) :
    setHand (setHand hs p h1) p h2 = setHand hs p h2 := by
  induction hs with
  | nil => rfl
  | cons kv rest ih =>
    by_cases hk : kv.1 = p
    · simp [setHand, hk]
    · simp [setHand, hk, ih]

/-- Writes to distinct keys commute. -/
theorem setHand_comm (hs : List (String × Hand)) (p q : String) (h1 h2 : Hand)
    (hpq : p ≠ q) : setHand (setHand hs p h1) q h2 = setHand (setHand hs q h2) p h1 := by
  have hqp : q ≠ p := fun h => hpq h.symm
  induction hs with
  | nil => rfl
  | cons kv rest ih =>
    by_cases hk : kv.1 = p
    · have : kv.1 ≠ q := by rw [hk]; exact hpq
      simp [setHand, hk, this, hpq, hqp]
    · by_cases hq : kv.1 = q
      · simp [setHand, hk, hq, hpq, hqp]
      · simp [setHand, hk, hq, ih]

/-- Writing back the hand already stored leaves the mapping unchanged. -/
theorem setHand_lookup_self (hs : List (String × Hand)) (p : String) (hd : Hand)
    (h : lookupHand hs p = some hd) : setHand hs p hd = hs := by
  induction hs with
  | nil => rfl
  | cons kv rest ih =>
    by_cases hk : kv.1 = p
    · simp only [lookupHand, hk, if_pos] at h
      simp only [setHand, hk, if_pos]
      obtain ⟨k, v⟩ := kv
      simp_all
    · simp only [lookupHand, hk, if_neg, ite_false] at h
      simp [setHand, hk, ih h]

/-- A slot write on a present key is a whole-hand write. -/
theorem updateSlot_eq_setHand (hs : List (String × Hand)) (p : String) (i : Nat)
    (v : Option Card) (hd : Hand) (h : lookupHand hs p = some hd) :
    updateSlot hs p i v = setHand hs p (hd.set i v) := by
  induction hs with
  | nil => rfl
  | cons kv rest ih =>
    by_cases hk : kv.1 = p
    · simp only [lookupHand, hk, if_pos] at h
      obtain ⟨k, w⟩ := kv
      simp_all [updateSlot, setHand]
    · simp only [lookupHand, hk, if_neg, ite_false] at h
      simp [updateSlot, setHand, hk, ih h]

/-- A slot write on an absent key is a no-op. -/
theorem updateSlot_of_lookup_none (hs : List (String × Hand)) (p : String) (i : Nat)
    (v : Option Card) (h : lookupHand hs p = none) : updateSlot hs p i v = hs := by
  induction hs with
  | nil => rfl
  | cons kv rest ih =>
    by_cases hk : kv.1 = p
    · simp [lookupHand, hk] at h
    · simp only [lookupHand, hk, if_neg, ite_false] at h
      simp [updateSlot, hk, ih h]

/-- Reading the key just slot-written. -/
theorem lookupHand_updateSlot_self (hs : List (String × Hand)) (p : String) (i : Nat)
    (v : Option Card) :
    lookupHand (updateSlot hs p i v) p = (lookupHand hs p).map (fun h => h.set i v) := by
  induction hs with
  | nil => rfl
  | cons kv rest ih =>
    by_cases hk : kv.1 = p
    · simp [updateSlot, lookupHand, hk]
    · simp [updateSlot, lookupHand, hk, ih]

/-- Reading a key other than the slot-written one. -/
theorem lookupHand_updateSlot_ne (hs : List (String × Hand)) (p q : String) (i : Nat)
    (v : Option Card) (hqp : q ≠ p) :
    lookupHand (updateSlot hs p i v) q = lookupHand hs q := by
  have hpq : p ≠ q := fun h => hqp h.symm
  induction hs with
  | nil => rfl
  | cons kv rest ih =>
    by_cases hk : kv.1 = p
    · have : kv.1 ≠ q := by rw [hk]; exact hpq
      simp [updateSlot, lookupHand, hk, this, hpq]
    · by_cases hq : kv.1 = q
      · simp [updateSlot, lookupHand, hk, hq, hqp]
      · simp [updateSlot, lookupHand, hk, hq, ih]

/-- Unfolding of a successful blindSwitch on two in-bounds non-gap
slots. -/
theorem blindSwitch_eq (gs : GameState) (pA pB : String) (iA iB : Nat)
    (hA hB : Hand) (cA cB : Card)
    (hlA : lookupHand gs.hands pA = some hA) (hlB : lookupHand gs.hands pB = some hB)
    (hiA : iA < hA.length) (hiB : iB < hB.length)
    (hcA : hA[iA]? = some (some cA)) (hcB : hB[iB]? = some (some cB)) :
    blindSwitch gs pA iA pB iB =
      some { gs with hands := updateSlot (updateSlot gs.hands pA iA (some cB)) pB iB (some cA) } := by
  simp only [blindSwitch, hlA, hlB, hcA, hcB, if_pos hiA, if_pos hiB]
  rfl

/-- C7: for every game state and every pair of in-bounds non-gap slots of
two (possibly equal) hands, performing the blind switch twice restores the
entire game state. -/
theorem blindSwitch_involutive (gs : GameState) (pA pB : String) (iA iB : Nat)
    (hA hB : Hand) (cA cB : Card)
    (hlA : lookupHand gs.hands pA = some hA) (hlB : lookupHand gs.hands pB = some hB)
    (hiA : iA < hA.length) (hiB : iB < hB.length)
    (hcA : hA[iA]? = some (some cA)) (hcB : hB[iB]? = some (some cB)) :
    ∃ gs1, blindSwitch gs pA iA pB iB = some gs1 ∧ blindSwitch gs1 pA iA pB iB = some gs := by
  have hstep1 := blindSwitch_eq gs pA pB iA iB hA hB cA cB hlA hlB hiA hiB hcA hcB
  by_cases hpq : pA = pB
  · -- aliased case: both slots live in the same hand
    subst hpq
    have hAB : hA = hB := by
      rw [hlA] at hlB
      exact Option.some.inj hlB
    subst hAB
    have e1 : updateSlot gs.hands pA iA (some cB) = setHand gs.hands pA (hA.set iA (some cB)) :=
      updateSlot_eq_setHand _ _ _ _ _ hlA
    have l1 : lookupHand (setHand gs.hands pA (hA.set iA (some cB))) pA
        = some (hA.set iA (some cB)) := by
      rw [lookupHand_setHand_self, hlA]
      rfl
    have e2 : updateSlot (setHand gs.hands pA (hA.set iA (some cB))) pA iB (some cA)
        = setHand gs.hands pA ((hA.set iA (some cB)).set iB (some cA)) := by
      rw [updateSlot_eq_setHand _ _ _ _ _ l1, setHand_setHand_self]
    by_cases hij : iA = iB
    · -- same slot: the switch writes the slot content back
      subst hij
      have hcc : cA = cB := by
        rw [hcA] at hcB
        exact Option.some.inj (Option.some.inj hcB)
      subst hcc
      have hself : (hA.set iA (some cA)).set iA (some cA) = hA := by
        rw [List.set_set]
        exact set_of_getElem_eq _ _ _ hcA
      have hands1 : updateSlot (updateSlot gs.hands pA iA (some cA)) pA iA (some cA)
          = gs.hands := by
        rw [e1, e2, hself]
        exact setHand_lookup_self _ _ _ hlA
      refine ⟨gs, ?_, ?_⟩
      · rw [hstep1, hands1]
      · rw [hstep1, hands1]
    · -- distinct slots of the same hand
      have hands1eq : updateSlot (updateSlot gs.hands pA iA (some cB)) pA iB (some cA)
          = setHand gs.hands pA ((hA.set iA (some cB)).set iB (some cA)) := by
        rw [e1, e2]
      set h1 : Hand := (hA.set iA (some cB)).set iB (some cA) with hh1
      have l1b : lookupHand (setHand gs.hands pA h1) pA = some h1 := by
        rw [lookupHand_setHand_self, hlA]
        rfl
      have hlen1 : iA < h1.length := by
        rw [hh1]
        simpa using hiA
      have hlen2 : iB < h1.length := by
        rw [hh1]
        simpa using hiB
      have hc1 : h1[iA]? = some (some cB) := by
        rw [hh1, List.getElem?_set_ne (fun h => hij h.symm),
          List.getElem?_set_self hiA]
      have hc2 : h1[iB]? = some (some cA) := by
        rw [hh1, List.getElem?_set_self]
        rw [List.length_set]
        exact hiB
      have gs1def : blindSwitch gs pA iA pA iB = some { gs with hands := setHand gs.hands pA h1 } := by
        rw [hstep1, hands1eq]
      have hstep2 := blindSwitch_eq { gs with hands := setHand gs.hands pA h1 }
        pA pA iA iB h1 h1 cB cA l1b l1b hlen1 hlen2 hc1 hc2
      have e3 : updateSlot (setHand gs.hands pA h1) pA iA (some cA)
          = setHand gs.hands pA (h1.set iA (some cA)) := by
        rw [updateSlot_eq_setHand _ _ _ _ _ l1b, setHand_setHand_self]
      have l1c : lookupHand (setHand gs.hands pA (h1.set iA (some cA))) pA
          = some (h1.set iA (some cA)) := by
        rw [lookupHand_setHand_self, hlA]
        rfl
      have e4 : updateSlot (setHand gs.hands pA (h1.set iA (some cA))) pA iB (some cB)
          = setHand gs.hands pA ((h1.set iA (some cA)).set iB (some cB)) := by
        rw [updateSlot_eq_setHand _ _ _ _ _ l1c, setHand_setHand_self]
      have hback : (h1.set iA (some cA)).set iB (some cB) = hA := by
        apply List.ext_getElem?
        intro j
        by_cases hjB : iB = j
        · subst hjB
          have hb : iB < (h1.set iA (some cA)).length := by
            rw [List.length_set]
            exact hlen2
          rw [List.getElem?_set_self hb, hcB]
        · rw [List.getElem?_set_ne hjB]
          by_cases hjA : iA = j
          · subst hjA
            rw [List.getElem?_set_self hlen1, hcA]
          · rw [List.getElem?_set_ne hjA, hh1, List.getElem?_set_ne hjB,
              List.getElem?_set_ne hjA]
      refine ⟨{ gs with hands := setHand gs.hands pA h1 }, gs1def, ?_⟩
      rw [hstep2, e3, e4, hback, setHand_lookup_self _ _ _ hlA]
  · -- distinct players
    have hqp : pB ≠ pA := fun h => hpq h.symm
    have e1 : updateSlot gs.hands pA iA (some cB) = setHand gs.hands pA (hA.set iA (some cB)) :=
      updateSlot_eq_setHand _ _ _ _ _ hlA
    have l2 : lookupHand (setHand gs.hands pA (hA.set iA (some cB))) pB = some hB := by
      rw [lookupHand_setHand_ne _ _ _ _ hqp]
      exact hlB
    have e2 : updateSlot (setHand gs.hands pA (hA.set iA (some cB))) pB iB (some cA)
        = setHand (setHand gs.hands pA (hA.set iA (some cB))) pB (hB.set iB (some cA)) :=
      updateSlot_eq_setHand _ _ _ _ _ l2
    set hA1 : Hand := hA.set iA (some cB) with hhA1
    set hB1 : Hand := hB.set iB (some cA) with hhB1
    set hands1 : List (String × Hand) := setHand (setHand gs.hands pA hA1) pB hB1 with hhands1
    have gs1def : blindSwitch gs pA iA pB iB = some { gs with hands := hands1 } := by
      rw [hstep1, e1, e2]
    have lA1 : lookupHand hands1 pA = some hA1 := by
      rw [hhands1, lookupHand_setHand_ne _ _ _ _ hpq, lookupHand_setHand_self, hlA]
      rfl
    have lB1 : lookupHand hands1 pB = some hB1 := by
      rw [hhands1, lookupHand_setHand_self, l2]
      rfl
    have hlenA1 : iA < hA1.length := by
      rw [hhA1]
      simpa using hiA
    have hlenB1 : iB < hB1.length := by
      rw [hhB1]
      simpa using hiB
    have hcA1 : hA1[iA]? = some (some cB) := by
      rw [hhA1]
      exact List.getElem?_set_self hiA
    have hcB1 : hB1[iB]? = some (some cA) := by
      rw [hhB1]
      exact List.getElem?_set_self hiB
    have hstep2 := blindSwitch_eq { gs with hands := hands1 } pA pB iA iB hA1 hB1 cB cA
      lA1 lB1 hlenA1 hlenB1 hcA1 hcB1
    have e3 : updateSlot hands1 pA iA (some cA) = setHand gs.hands pB hB1 := by
      rw [updateSlot_eq_setHand _ _ _ _ _ lA1, hhA1, List.set_set,
        set_of_getElem_eq _ _ _ hcA, hhands1]
      rw [setHand_comm _ _ _ _ _ hqp, setHand_setHand_self, setHand_lookup_self _ _ _ hlA]
    have l3 : lookupHand (setHand gs.hands pB hB1) pB = some hB1 := by
      rw [lookupHand_setHand_self, hlB]
      rfl
    have e4 : updateSlot (setHand gs.hands pB hB1) pB iB (some cB) = gs.hands := by
      rw [updateSlot_eq_setHand _ _ _ _ _ l3, setHand_setHand_self, hhB1, List.set_set,
        set_of_getElem_eq _ _ _ hcB]
      exact setHand_lookup_self _ _ _ hlB
    refine ⟨{ gs with hands := hands1 }, gs1def, ?_⟩
    rw [hstep2, e3, e4]

/-- Witness for C7: the double switch on a concrete two-player state. -/
theorem blindSwitch_involutive_witness :
    ∃ gs1, blindSwitch gsW7 "p1" 0 "p2" 0 = some gs1 ∧
      blindSwitch gs1 "p1" 0 "p2" 0 = some gsW7 :=
  blindSwitch_involutive gsW7 "p1" "p2" 0 0
    [some (cardOf "spades" "A"), some (cardOf "hearts" "2")]
    [some (cardOf "clubs" "3")]
    (cardOf "spades" "A") (cardOf "clubs" "3")
    (by decide) (by decide) (by decide) (by decide) (by decide) (by decide)

/-- The single bot scoring pass equals the three per-slot sums of the
claim. -/
theorem mediumLoop_eq (memory : List (Nat × Card)) (hand : Hand) :
    ∀ (i : Nat) (kc : Nat) (kp est : Int),
      mediumLoop memory hand i (kc, kp, est)
        = (kc + knownSlotCount memory hand i, kp + knownSlotSum memory hand i,
           est + estimateSum memory hand i) := by
  induction hand with
  | nil =>
    intro i kc kp est
    simp [mediumLoop, knownSlotCount, knownSlotSum, estimateSum]
  | cons slot rest ih =>
    intro i kc kp est
    cases slot with
    | none =>
      simp only [mediumLoop, knownSlotCount, knownSlotSum, estimateSum]
      exact ih (i + 1) kc kp est
    | some c =>
      cases hk : knownCard memory i with
      | none =>
        simp only [mediumLoop, knownSlotCount, knownSlotSum, estimateSum, hk]
        rw [ih (i + 1) kc kp (est + 6)]
        simp [add_assoc, Option.isSome]
      | some known =>
        simp only [mediumLoop, knownSlotCount, knownSlotSum, estimateSum, hk]
        rw [ih (i + 1) (kc + 1) (kp + getCardPoints known) (est + getCardPoints known)]
        simp only [Prod.mk.injEq, Option.isSome_some, if_true]
        refine ⟨by omega, by ring, by ring⟩

/-- C9: MediumBot.shouldCallRedKing holds exactly when at least two slots
are known, the known slots sum to at most 5 points and the estimate that
scores each unknown non-gap slot as 6 points is at most 8. -/
theorem mediumShouldCallRedKing_iff (memory : List (Nat × Card)) (hand : Hand) :
    mediumShouldCallRedKing memory hand = true ↔
      (2 ≤ knownSlotCount memory hand 0 ∧ knownSlotSum memory hand 0 ≤ 5 ∧
        estimateSum memory hand 0 ≤ 8) := by
  unfold mediumShouldCallRedKing
  rw [mediumLoop_eq memory hand 0 0 0 0]
  simp

/-- The modular walk callRedKing performs over the turn order equals the
rotation that drops the caller: the elements after the caller followed by
the elements before them. -/
theorem redemption_rotation_eq (l : List String) (c : Nat) (hc : c < l.length) :
    (List.range (l.length - 1)).map (fun i => l.getD ((c + (i + 1)) % l.length) "")
      = l.drop (c + 1) ++ l.take c := by
  apply List.ext_getElem?
  intro j
  rw [List.getElem?_map, List.getElem?_append]
  by_cases hj : j < l.length - 1
  · rw [List.getElem?_range hj]
    simp only [Option.map_some']
    rw [List.getD_eq_getElem?_getD]
    by_cases hsplit : j < (l.drop (c + 1)).length
    · rw [if_pos hsplit, List.getElem?_drop]
      have hin : c + 1 + j < l.length := by
        rw [List.length_drop] at hsplit
        omega
      have hmod : (c + (j + 1)) % l.length = c + 1 + j := by
        rw [Nat.mod_eq_of_lt (by omega)]
        omega
      rw [hmod, List.getElem?_eq_getElem hin]
      rfl
    · rw [if_neg hsplit, List.getElem?_take]
      rw [List.length_drop] at hsplit
      have hidx : j - (l.drop (c + 1)).length = j - (l.length - (c + 1)) := by
        rw [List.length_drop]
      have hlt : j - (l.length - (c + 1)) < c := by omega
      rw [hidx, if_pos hlt]
      have hmod : (c + (j + 1)) % l.length = j - (l.length - (c + 1)) := by
        have h1 : c + (j + 1) = l.length + (j - (l.length - (c + 1))) := by omega
        rw [h1, Nat.add_mod_left, Nat.mod_eq_of_lt (by omega)]
      have hin : j - (l.length - (c + 1)) < l.length := by omega
      rw [hmod, List.getElem?_eq_getElem hin]
      rfl
  · rw [List.getElem?_eq_none (by simpa using hj)]
    have hlen : (l.drop (c + 1)).length ≤ j := by
      rw [List.length_drop]
      omega
    rw [if_neg (by omega : ¬ j < (l.drop (c + 1)).length)]
    rw [List.getElem?_eq_none]
    · rfl
    · rw [List.length_take]
      rw [List.length_drop] at hlen ⊢
      omega

/-- C4: callRedKing succeeds exactly when the phase is play, the caller
holds the turn and no card is drawn; on success it marks the caller, moves
to redemption, installs the redemption order that rotates the turn order
past the caller and drops them, and resets the redemption index and drawn
state; on failure it returns none, leaving the state unchanged. -/
theorem callRedKing_spec (gs : GameState) (pid : String) :
    ((callRedKing gs pid).isSome ↔
      (gs.phase = "play" ∧ getCurrentTurnPlayer gs = some pid ∧ gs.drawnCard = none))
    ∧ (∀ gs2, callRedKing gs pid = some gs2 →
        gs2 = { gs with
          redKingCaller := some pid, phase := "redemption",
          redemptionOrder := some (gs.turnOrder.drop (gs.turnOrder.indexOf pid + 1)
            ++ gs.turnOrder.take (gs.turnOrder.indexOf pid)),
          redemptionIndex := 0, drawnCard := none, drawnBy := none }) := by
  constructor
  · unfold callRedKing
    split_ifs with h1 h2 h3
    · simp only [Option.isSome_none, Bool.false_eq_true, false_iff]
      intro h
      exact h1 h.1
    · simp only [Option.isSome_none, Bool.false_eq_true, false_iff]
      intro h
      exact h2 h.2.1
    · simp only [Option.isSome_none, Bool.false_eq_true, false_iff]
      intro h
      rw [h.2.2] at h3
      simp at h3
    · simp only [Option.isSome_some, true_iff]
      refine ⟨not_not.mp h1, not_not.mp h2, ?_⟩
      cases hdc : gs.drawnCard with
      | none => rfl
      | some c => rw [hdc] at h3; simp at h3
  · intro gs2 hgs2
    unfold callRedKing at hgs2
    split_ifs at hgs2 with h1 h2 h3
    have hcur : getCurrentTurnPlayer gs = some pid := not_not.mp h2
    have hmem : pid ∈ gs.turnOrder := by
      unfold getCurrentTurnPlayer at hcur
      rw [if_neg (by rw [not_not.mp h1]; exact fun h => by simp at h)] at hcur
      obtain ⟨hb, he⟩ := List.getElem?_eq_some.mp hcur
      exact he ▸ List.getElem_mem hb
    have hidx : gs.turnOrder.indexOf pid < gs.turnOrder.length :=
      List.indexOf_lt_length.mpr hmem
    have hrot := redemption_rotation_eq gs.turnOrder (gs.turnOrder.indexOf pid) hidx
    rw [← hrot]
    exact (Option.some.inj hgs2).symm

/-- Witness for C4: calling Red King in a concrete three-player play state
succeeds and produces the rotated redemption order. -/
theorem callRedKing_spec_witness :
    (callRedKing gsW4 "p2").isSome ∧
      gsW4red = { gsW4 with
        redKingCaller := some "p2", phase := "redemption",
        redemptionOrder := some (gsW4.turnOrder.drop (gsW4.turnOrder.indexOf "p2" + 1)
          ++ gsW4.turnOrder.take (gsW4.turnOrder.indexOf "p2")),
        redemptionIndex := 0, drawnCard := none, drawnBy := none } :=
  ⟨(callRedKing_spec gsW4 "p2").1.mpr (by decide),
   (callRedKing_spec gsW4 "p2").2 gsW4red (by decide)⟩

/-- C6: a successful own match turns the matched slot into a gap without
changing the slot count, and addCardToHand writes into the first gap when
one exists, appends otherwise, and can grow the hand only when the hand
has no gap. -/
theorem match_gap_and_addCard_spec :
    (∀ (gs : GameState) (pid : String) (i : Nat) (hand : Hand) (r : MatchOwnResult)
        (gs2 : GameState),
        lookupHand gs.hands pid = some hand →
        callMatchOwn gs pid i = some (r, gs2) → r.success = true →
        lookupHand gs2.hands pid = some (hand.set i none) ∧
          (hand.set i none).length = hand.length ∧ (hand.set i none)[i]? = some none)
    ∧ (∀ (h : Hand) (c : Option Card),
        (∀ j, h.findIdx? (fun s => s = none) = some j →
          addCardToHand h c = (h.set j c, j) ∧ (h.set j c).length = h.length ∧
            h[j]? = some none ∧ ∀ k, k < j → h[k]? ≠ some none)
        ∧ (h.findIdx? (fun s => s = none) = none →
            addCardToHand h c = (h ++ [c], h.length))
        ∧ ((addCardToHand h c).1.length ≠ h.length → ∀ s ∈ h, s ≠ none)) := by
  constructor
  · intro gs pid i hand r gs2 hlk hcall hsucc
    cases htop : getTopDiscard gs with
    | none =>
      simp only [callMatchOwn, htop] at hcall
      simp at hcall
    | some top =>
      simp only [callMatchOwn, htop, hlk] at hcall
      by_cases hi : i < hand.length
      · rw [if_pos hi] at hcall
        cases hslot : (hand[i]?).join with
        | none =>
          simp only [hslot] at hcall
          simp at hcall
        | some revealed =>
          simp only [hslot] at hcall
          by_cases hmatch : cardsMatchByRank (some revealed) (some top) = true
          · rw [if_pos hmatch] at hcall
            have hpair := Option.some.inj hcall
            have hgs2 : gs2 = { gs with
                hands := updateSlot gs.hands pid i none,
                discardPile := gs.discardPile ++ [some revealed] } :=
              (congrArg Prod.snd hpair).symm
            refine ⟨?_, List.length_set hand i none, List.getElem?_set_self hi⟩
            rw [hgs2]
            show lookupHand (updateSlot gs.hands pid i none) pid = some (hand.set i none)
            rw [updateSlot_eq_setHand _ _ _ _ _ hlk, lookupHand_setHand_self, hlk]
            rfl
          · rw [if_neg hmatch] at hcall
            cases hlast : gs.deck.getLast? with
            | some pc =>
              rw [hlast] at hcall
              have := congrArg (fun x => x.1.success) (Option.some.inj hcall)
              simp at this
              rw [this] at hsucc
              simp at hsucc
            | none =>
              rw [hlast] at hcall
              have := congrArg (fun x => x.1.success) (Option.some.inj hcall)
              simp at this
              rw [this] at hsucc
              simp at hsucc
      · rw [if_neg hi] at hcall
        exact absurd hcall (by simp)
  · intro h c
    refine ⟨?_, ?_, ?_⟩
    · intro j hfind
      obtain ⟨hjlen, hfidx⟩ := List.findIdx?_eq_some_iff_findIdx_eq.mp hfind
      obtain ⟨hpj, hbefore⟩ := (List.findIdx_eq hjlen).mp hfidx
      refine ⟨?_, List.length_set h j c, ?_, ?_⟩
      · unfold addCardToHand
        rw [hfind]
      · have hj : h[j] = none := by simpa using hpj
        rw [List.getElem?_eq_getElem hjlen, hj]
      · intro k hk hcontra
        have hklen : k < h.length := hk.trans hjlen
        have := hbefore k hk
        rw [List.getElem?_eq_getElem hklen] at hcontra
        have : h[k] = none := Option.some.inj hcontra
        simp [this] at *
    · intro hfind
      unfold addCardToHand
      rw [hfind]
    · intro hgrow s hs
      cases hfind : h.findIdx? (fun s => s = none) with
      | some j =>
        exfalso
        apply hgrow
        unfold addCardToHand
        rw [hfind]
        exact List.length_set h j c
      | none =>
        have := List.findIdx?_eq_none_iff.mp hfind s hs
        simpa using this

/-- Witness for C6: the concrete own match on gsW6 slot 0 and addCardToHand
on a hand whose first slot is a gap. -/
theorem match_gap_and_addCard_spec_witness :
    (lookupHand gsW6match.hands "p1"
        = some (([some (cardOf "clubs" "5"), some (cardOf "diamonds" "7")] : Hand).set 0 none) ∧
      (([some (cardOf "clubs" "5"), some (cardOf "diamonds" "7")] : Hand).set 0 none).length
        = ([some (cardOf "clubs" "5"), some (cardOf "diamonds" "7")] : Hand).length ∧
      (([some (cardOf "clubs" "5"), some (cardOf "diamonds" "7")] : Hand).set 0 none)[0]?
        = some none)
    ∧ (addCardToHand ([none, some (cardOf "diamonds" "7")] : Hand) (some (cardOf "spades" "2"))
        = (([none, some (cardOf "diamonds" "7")] : Hand).set 0 (some (cardOf "spades" "2")), 0)) :=
  ⟨match_gap_and_addCard_spec.1 gsW6 "p1" 0
      [some (cardOf "clubs" "5"), some (cardOf "diamonds" "7")]
      { success := true, card := cardOf "clubs" "5", penaltyCard := none } gsW6match
      (by decide) (by decide) (by decide),
   ((match_gap_and_addCard_spec.2 ([none, some (cardOf "diamonds" "7")] : Hand)
      (some (cardOf "spades" "2"))).1 0 (by decide)).1⟩

/-- C10: a wrong own match against an empty deck returns a failure result
with no penalty card and returns the game state untouched. -/
theorem callMatchOwn_emptyDeck_penalty (gs : GameState) (pid : String) (i : Nat)
    (hand : Hand) (c top : Card)
    (hlk : lookupHand gs.hands pid = some hand) (hi : i < hand.length)
    (hslot : hand[i]? = some (some c)) (htop : getTopDiscard gs = some top)
    (hne : c.rank ≠ top.rank) (hdeck : gs.deck = []) :
    callMatchOwn gs pid i = some ({ success := false, card := c, penaltyCard := none }, gs) := by
  have hlast : gs.deck.getLast? = none := by rw [hdeck]; rfl
  have hjoin : (hand[i]?).join = some c := by rw [hslot]; rfl
  have hmatch : ¬ (cardsMatchByRank (some c) (some top) = true) := by
    simp [cardsMatchByRank, hne]
  simp only [callMatchOwn, htop, hlk, if_pos hi, hjoin, if_neg hmatch, hlast]

/-- The winner id always belongs to a row tied for the lowest score. -/
theorem winnerIdOf_spec (callerId : Option String) (sorted : List PlayerResult)
    (first : PlayerResult) (hfirst : first ∈ sorted) :
    ∃ x ∈ sorted.filter (fun r => r.score = first.score),
      winnerIdOf callerId sorted first = x.id := by
  have hfirstpw : first ∈ sorted.filter (fun r => r.score = first.score) :=
    List.mem_filter.mpr ⟨hfirst, by simp⟩
  unfold winnerIdOf
  cases hpw : sorted.filter (fun r => r.score = first.score) with
  | nil => rw [hpw] at hfirstpw; simp at hfirstpw
  | cons p0 t =>
    by_cases hlen : (p0 :: t).length = 1
    · exact ⟨p0, List.mem_cons_self _ _, by rw [if_pos hlen]; rfl⟩
    · rw [if_neg hlen]
      cases hnct : (p0 :: t).filter (fun r => ¬ (callerId = some r.id)) with
      | nil => exact ⟨p0, List.mem_cons_self _ _, rfl⟩
      | cons w wt =>
        have hw : w ∈ (p0 :: t).filter (fun r => ¬ (callerId = some r.id)) := by
          rw [hnct]
          exact List.mem_cons_self _ _
        exact ⟨w, (List.mem_filter.mp hw).1, rfl⟩

/-- When the caller is tied for the lowest score with some other row, the
selected winner is never the caller. -/
theorem winnerIdOf_ne_caller (callerId : Option String) (sorted : List PlayerResult)
    (first : PlayerResult) (cid : String) (hcid : callerId = some cid)
    (rc : PlayerResult) (hrc : rc ∈ sorted.filter (fun r => r.score = first.score))
    (hrcid : rc.id = cid)
    (rn : PlayerResult) (hrn : rn ∈ sorted.filter (fun r => r.score = first.score))
    (hrnid : rn.id ≠ cid) :
    winnerIdOf callerId sorted first ≠ cid := by
  unfold winnerIdOf
  have hlen : ¬ (sorted.filter (fun r => r.score = first.score)).length = 1 := by
    intro hone
    obtain ⟨a, ha⟩ := List.length_eq_one.mp hone
    rw [ha] at hrc hrn
    have h1 : rc = a := by simpa using hrc
    have h2 : rn = a := by simpa using hrn
    apply hrnid
    rw [h2, ← h1]
    exact hrcid
  rw [if_neg hlen]
  have hrnnct : rn ∈ (sorted.filter (fun r => r.score = first.score)).filter
      (fun r => ¬ (callerId = some r.id)) := by
    refine List.mem_filter.mpr ⟨hrn, ?_⟩
    rw [hcid]
    simpa using fun h => hrnid h.symm
  cases hnct : (sorted.filter (fun r => r.score = first.score)).filter
      (fun r => ¬ (callerId = some r.id)) with
  | nil => rw [hnct] at hrnnct; simp at hrnnct
  | cons w wt =>
    have hw : w ∈ (sorted.filter (fun r => r.score = first.score)).filter
        (fun r => ¬ (callerId = some r.id)) := by
      rw [hnct]
      exact List.mem_cons_self _ _
    have hwne : ¬ (callerId = some w.id) := by
      have := (List.mem_filter.mp hw).2
      simpa using this
    show w.id ≠ cid
    intro hweq
    apply hwne
    rw [hcid, hweq]

/-- C5: every reported score is the point sum of the corresponding hand,
the reported winner is a row with the minimum score, and whenever the Red
King caller is tied with another row for the minimum the winner is never
the caller. -/
theorem getGameResults_spec (players : List Player) (gs : GameState) (res : GameResults)
    (hres : getGameResults players gs = some res) :
    (∀ r ∈ res.results, ∃ hand, lookupHand gs.hands r.id = some hand ∧
        r.score = getPlayerScore hand)
    ∧ (∃ w ∈ res.results, w.id = res.winnerId ∧ ∀ q ∈ res.results, w.score ≤ q.score)
    ∧ (∀ cid, res.callerId = some cid →
        (∃ rc ∈ res.results, rc.id = cid ∧ ∀ q ∈ res.results, rc.score ≤ q.score) →
        (∃ rn ∈ res.results, rn.id ≠ cid ∧ ∀ q ∈ res.results, rn.score ≤ q.score) →
        res.winnerId ≠ cid) := by
  unfold getGameResults at hres
  cases hS : (resultRows players gs).insertionSort (fun a b => a.score ≤ b.score) with
  | nil =>
    rw [hS] at hres
    simp at hres
  | cons first rest =>
    rw [hS] at hres
    have hres2 : res = _ := (Option.some.inj hres).symm
    subst hres2
    have hsort : List.Sorted (fun a b : PlayerResult => a.score ≤ b.score) (first :: rest) := by
      rw [← hS]
      exact List.sorted_insertionSort _ _
    have hperm : (first :: rest).Perm (resultRows players gs) := by
      rw [← hS]
      exact List.perm_insertionSort _ _
    have hmin : ∀ q ∈ first :: rest, first.score ≤ q.score := by
      intro q hq
      rcases List.mem_cons.mp hq with h | h
      · rw [h]
      · exact (List.pairwise_cons.mp hsort).1 q h
    refine ⟨?_, ?_, ?_⟩
    · intro r hr
      have hr2 : r ∈ resultRows players gs := hperm.mem_iff.mp hr
      obtain ⟨p, hp, heq⟩ := List.mem_filterMap.mp hr2
      cases hlp : lookupHand gs.hands p.id with
      | none =>
        rw [hlp] at heq
        simp at heq
      | some hand =>
        rw [hlp] at heq
        simp only [Option.map_some'] at heq
        have hrec := Option.some.inj heq
        refine ⟨hand, ?_, ?_⟩
        · rw [← hrec]
          exact hlp
        · rw [← hrec]
    · obtain ⟨x, hx, hwid⟩ :=
        winnerIdOf_spec gs.redKingCaller (first :: rest) first (List.mem_cons_self _ _)
      have hxmem : x ∈ first :: rest := (List.mem_filter.mp hx).1
      have hxscore : x.score = first.score := by
        have := (List.mem_filter.mp hx).2
        simpa using this
      refine ⟨x, hxmem, hwid.symm, ?_⟩
      intro q hq
      rw [hxscore]
      exact hmin q hq
    · intro cid hcid hrc hrn
      obtain ⟨rc, hrcmem, hrcid, hrcmin⟩ := hrc
      obtain ⟨rn, hrnmem, hrnid, hrnmin⟩ := hrn
      have hrcscore : rc.score = first.score :=
        le_antisymm (hrcmin first (List.mem_cons_self _ _)) (hmin rc hrcmem)
      have hrnscore : rn.score = first.score :=
        le_antisymm (hrnmin first (List.mem_cons_self _ _)) (hmin rn hrnmem)
      exact winnerIdOf_ne_caller gs.redKingCaller (first :: rest) first cid hcid
        rc (List.mem_filter.mpr ⟨hrcmem, by simp [hrcscore]⟩) hrcid
        rn (List.mem_filter.mpr ⟨hrnmem, by simp [hrnscore]⟩) hrnid

/-- Witness for C5: the concrete tie between the caller Alice and Bob, both
on 10 points, is won by Bob. -/
theorem getGameResults_spec_witness :
    getGameResults playersW5 gsW5 = some resW5 ∧ resW5.winnerId ≠ "p1" :=
  ⟨by decide,
   (getGameResults_spec playersW5 gsW5 resW5 (by decide)).2.2 "p1" (by decide)
     ⟨{ id := "p1", name := "Alice", hand := [cardOf "spades" "10"], score := 10,
        isCaller := true }, by decide, by decide, by decide⟩
     ⟨{ id := "p2", name := "Bob", hand := [cardOf "clubs" "10"], score := 10,
        isCaller := false }, by decide, by decide, by decide⟩⟩

/-- Filtered cards of a cons hand. -/
theorem handCards_cons (x : Option Card) (l : Hand) :
    handCards (x :: l) = x.toList ++ handCards l := by
  cases x <;> rfl

/-- Filtered cards of an appended hand. -/
theorem handCards_append (a b : Hand) :
    handCards (a ++ b) = handCards a ++ handCards b :=
  List.filterMap_append a b id

/-- Overwriting one slot exchanges that slot's card content in the hand's
card multiset. -/
theorem handCards_set (h : Hand) : ∀ (i : Nat) (old v : Option Card), h[i]? = some old →
    (handCards (h.set i v) : Multiset Card) + (old.toList : Multiset Card)
      = (handCards h : Multiset Card) + (v.toList : Multiset Card) := by
  induction h with
  | nil =>
    intro i old v hold
    simp at hold
  | cons x t ih =>
    intro i old v hold
    cases i with
    | zero =>
      have hx : x = old := by simpa using hold
      subst hx
      show ((handCards (v :: t) : List Card) : Multiset Card) + _ = _
      rw [handCards_cons, handCards_cons, ← Multiset.coe_add, ← Multiset.coe_add]
      abel
    | succ n =>
      have hold2 : t[n]? = some old := by simpa using hold
      show ((handCards (x :: t.set n v) : List Card) : Multiset Card) + _ = _
      rw [handCards_cons, handCards_cons, ← Multiset.coe_add, ← Multiset.coe_add]
      have := ih n old v hold2
      calc (x.toList : Multiset Card) + (handCards (t.set n v) : Multiset Card)
          + (old.toList : Multiset Card)
          = (x.toList : Multiset Card)
            + ((handCards (t.set n v) : Multiset Card) + (old.toList : Multiset Card)) := by
            abel
        _ = (x.toList : Multiset Card)
            + ((handCards t : Multiset Card) + (v.toList : Multiset Card)) := by rw [this]
        _ = (x.toList : Multiset Card) + (handCards t : Multiset Card)
            + (v.toList : Multiset Card) := by abel

/-- All cards of a cons mapping. -/
theorem allHandCards_cons (kv : String × Hand) (rest : List (String × Hand)) :
    allHandCards (kv :: rest) = handCards kv.2 ++ allHandCards rest := rfl

/-- Replacing a present hand exchanges its cards in the mapping's card
multiset. -/
theorem allHandCards_setHand (hs : List (String × Hand)) (p : String) (hd h2 : Hand)
    (hlk : lookupHand hs p = some hd) :
    (allHandCards (setHand hs p h2) : Multiset Card) + (handCards hd : Multiset Card)
      = (allHandCards hs : Multiset Card) + (handCards h2 : Multiset Card) := by
  induction hs with
  | nil => simp [lookupHand] at hlk
  | cons kv rest ih =>
    by_cases hk : kv.1 = p
    · obtain ⟨k, w⟩ := kv
      simp only at hk
      subst hk
      have hhd : hd = w := by
        simp [lookupHand] at hlk
        exact hlk.symm
      have hset : setHand ((k, w) :: rest) k h2 = (k, h2) :: rest := by
        simp [setHand]
      rw [hset, allHandCards_cons, allHandCards_cons]
      dsimp only
      rw [← Multiset.coe_add, ← Multiset.coe_add, hhd]
      abel
    · simp only [lookupHand, hk, ite_false] at hlk
      have hset : setHand (kv :: rest) p h2 = kv :: setHand rest p h2 := by
        simp [setHand, hk]
      rw [hset, allHandCards_cons, allHandCards_cons, ← Multiset.coe_add, ← Multiset.coe_add]
      have := ih hlk
      calc (handCards kv.2 : Multiset Card) + (allHandCards (setHand rest p h2) : Multiset Card)
          + (handCards hd : Multiset Card)
          = (handCards kv.2 : Multiset Card)
            + ((allHandCards (setHand rest p h2) : Multiset Card)
              + (handCards hd : Multiset Card)) := by abel
        _ = (handCards kv.2 : Multiset Card)
            + ((allHandCards rest : Multiset Card) + (handCards h2 : Multiset Card)) := by
            rw [this]
        _ = (handCards kv.2 : Multiset Card) + (allHandCards rest : Multiset Card)
            + (handCards h2 : Multiset Card) := by abel

/-- Slot overwrite on a present hand exchanges the slot content in the
mapping's card multiset. -/
theorem allHandCards_updateSlot (hs : List (String × Hand)) (p : String) (i : Nat)
    (hd : Hand) (old v : Option Card)
    (hlk : lookupHand hs p = some hd) (hold : hd[i]? = some old) :
    (allHandCards (updateSlot hs p i v) : Multiset Card) + (old.toList : Multiset Card)
      = (allHandCards hs : Multiset Card) + (v.toList : Multiset Card) := by
  rw [updateSlot_eq_setHand _ _ _ _ _ hlk]
  have h1 := allHandCards_setHand hs p hd (hd.set i v) hlk
  have h2 := handCards_set hd i old v hold
  have h3 : (allHandCards (setHand hs p (hd.set i v)) : Multiset Card)
      + (old.toList : Multiset Card) + (handCards hd : Multiset Card)
      = (allHandCards hs : Multiset Card) + (v.toList : Multiset Card)
        + (handCards hd : Multiset Card) := by
    calc (allHandCards (setHand hs p (hd.set i v)) : Multiset Card)
        + (old.toList : Multiset Card) + (handCards hd : Multiset Card)
        = (allHandCards (setHand hs p (hd.set i v)) : Multiset Card)
          + (handCards hd : Multiset Card) + (old.toList : Multiset Card) := by abel
      _ = (allHandCards hs : Multiset Card) + (handCards (hd.set i v) : Multiset Card)
          + (old.toList : Multiset Card) := by rw [h1]
      _ = (allHandCards hs : Multiset Card)
          + ((handCards (hd.set i v) : Multiset Card) + (old.toList : Multiset Card)) := by
          abel
      _ = (allHandCards hs : Multiset Card)
          + ((handCards hd : Multiset Card) + (v.toList : Multiset Card)) := by rw [h2]
      _ = (allHandCards hs : Multiset Card) + (v.toList : Multiset Card)
          + (handCards hd : Multiset Card) := by abel
  exact add_right_cancel h3

/-- addCardToHand adds exactly the given card content to the hand's card
multiset. -/
theorem handCards_addCardToHand (h : Hand) (v : Option Card) :
    (handCards ((addCardToHand h v).1) : Multiset Card)
      = (handCards h : Multiset Card) + (v.toList : Multiset Card) := by
  unfold addCardToHand
  cases hfind : h.findIdx? (fun s => s = none) with
  | some j =>
    obtain ⟨hjlen, hfidx⟩ := List.findIdx?_eq_some_iff_findIdx_eq.mp hfind
    obtain ⟨hpj, _⟩ := (List.findIdx_eq hjlen).mp hfidx
    have hj : h[j] = none := by simpa using hpj
    have hold : h[j]? = some none := by
      rw [List.getElem?_eq_getElem hjlen, hj]
    have := handCards_set h j none v hold
    simpa using this
  | none =>
    show ((handCards (h ++ [v]) : List Card) : Multiset Card) = _
    rw [handCards_append, ← Multiset.coe_add]
    cases v <;> simp [handCards]

/-- Popping the last deck card splits the deck's multiset. -/
theorem deck_pop_multiset (deck : List Card) (c : Card) (hlast : deck.getLast? = some c) :
    (deck : Multiset Card) = (deck.dropLast : Multiset Card) + ([c] : Multiset Card) := by
  have hmem : c ∈ deck.getLast? := by rw [hlast]; rfl
  have := List.dropLast_append_getLast? c hmem
  calc (deck : Multiset Card) = ((deck.dropLast ++ [c] : List Card) : Multiset Card) := by
        rw [this]
    _ = _ := (Multiset.coe_add _ _).symm

/-- A successful draw moves one card from the deck to the drawn slot,
conserving the card multiset. -/
theorem cardMultiset_drawCard (gs : GameState) (pid : String) (c : Card) (gs2 : GameState)
    (h : drawCard gs pid = some (c, gs2)) : cardMultiset gs2 = cardMultiset gs := by
  unfold drawCard at h
  split_ifs at h with h1 h2
  cases hlast : gs.deck.getLast? with
  | none => rw [hlast] at h; simp at h
  | some card =>
    rw [hlast] at h
    have hpair := Option.some.inj h
    have hgs2 : gs2 = { gs with
        deck := gs.deck.dropLast, drawnCard := some card,
        drawnBy := some pid } := (congrArg Prod.snd hpair).symm
    have hcc : c = card := (congrArg Prod.fst hpair).symm
    have hdrawn : gs.drawnCard = none := by
      cases hdc : gs.drawnCard with
      | none => rfl
      | some d => rw [hdc] at h2; simp at h2
    rw [hgs2]
    unfold cardMultiset
    dsimp only
    rw [hdrawn, deck_pop_multiset gs.deck card hlast]
    dsimp only [Option.toList]
    abel

/-- Keeping the drawn card swaps it with the replaced hand card, which goes
to the discard pile; the card multiset is conserved and the drawn slot is
cleared. -/
theorem cardMultiset_keepCard (gs : GameState) (pid : String) (i : Nat) (c : Card)
    (gs2 : GameState) (h : keepCard gs pid i = some (c, gs2)) :
    cardMultiset gs2 = cardMultiset gs ∧ gs2.drawnCard = none := by
  unfold keepCard at h
  split_ifs at h with h1
  cases hdc : gs.drawnCard with
  | none => rw [hdc] at h; simp at h
  | some dc =>
    rw [hdc] at h
    cases hlk : lookupHand gs.hands pid with
    | none => rw [hlk] at h; simp at h
    | some hand =>
      rw [hlk] at h
      simp only at h
      split_ifs at h with hi
      cases hslot : (hand[i]?).join with
      | none => rw [hslot] at h; simp at h
      | some discarded =>
        rw [hslot] at h
        simp only at h
        have hpair := Option.some.inj h
        have hgs2 : gs2 = { gs with
            hands := updateSlot gs.hands pid i (some dc),
            discardPile := gs.discardPile ++ [some discarded],
            drawnCard := none, drawnBy := none } := (congrArg Prod.snd hpair).symm
        have hold : hand[i]? = some (some discarded) := Option.join_eq_some.mp hslot
        have hx := allHandCards_updateSlot gs.hands pid i hand (some discarded) (some dc)
          hlk hold
        refine ⟨?_, by rw [hgs2]⟩
        rw [hgs2]
        unfold cardMultiset
        dsimp only
        rw [hdc, List.filterMap_append]
        dsimp only [Option.toList]
        calc (gs.deck : Multiset Card)
            + (allHandCards (updateSlot gs.hands pid i (some dc)) : Multiset Card)
            + ((gs.discardPile.filterMap id ++ [some discarded].filterMap id : List Card)
              : Multiset Card)
            + (([] : List Card) : Multiset Card)
            = (gs.deck : Multiset Card) + (gs.discardPile.filterMap id : Multiset Card)
              + ((allHandCards (updateSlot gs.hands pid i (some dc)) : Multiset Card)
                + (((some discarded : Option Card).toList : List Card) : Multiset Card)) := by
              rw [← Multiset.coe_add]
              dsimp only [Option.toList, List.filterMap]
              abel
          _ = (gs.deck : Multiset Card) + (gs.discardPile.filterMap id : Multiset Card)
              + ((allHandCards gs.hands : Multiset Card)
                + (((some dc : Option Card).toList : List Card) : Multiset Card)) := by
              rw [hx]
          _ = (gs.deck : Multiset Card) + (allHandCards gs.hands : Multiset Card)
              + (gs.discardPile.filterMap id : Multiset Card)
              + (((some dc : Option Card).toList : List Card) : Multiset Card) := by
              abel

/-- Discarding the drawn card moves it to the discard pile, conserving the
card multiset and clearing the drawn slot. -/
theorem cardMultiset_discardDrawnCard (gs : GameState) (pid : String) (c : Card)
    (gs2 : GameState) (h : discardDrawnCard gs pid = some (c, gs2)) :
    cardMultiset gs2 = cardMultiset gs ∧ gs2.drawnCard = none := by
  unfold discardDrawnCard at h
  split_ifs at h with h1
  cases hdc : gs.drawnCard with
  | none => rw [hdc] at h; simp at h
  | some card =>
    rw [hdc] at h
    simp only at h
    have hpair := Option.some.inj h
    have hgs2 : gs2 = { gs with
        discardPile := gs.discardPile ++ [some card],
        drawnCard := none, drawnBy := none } := (congrArg Prod.snd hpair).symm
    refine ⟨?_, by rw [hgs2]⟩
    rw [hgs2]
    unfold cardMultiset
    dsimp only
    rw [hdc, List.filterMap_append, ← Multiset.coe_add]
    dsimp only [Option.toList, List.filterMap]
    abel

/-- Advancing the play turn with no drawn card in flight conserves the card
multiset. -/
theorem cardMultiset_advanceTurn (gs : GameState) (hdrawn : gs.drawnCard = none) :
    cardMultiset (advanceTurn gs) = cardMultiset gs := by
  unfold advanceTurn cardMultiset
  dsimp only
  rw [hdrawn]

/-- Advancing the redemption turn with no drawn card in flight conserves
the card multiset. -/
theorem cardMultiset_advanceRedemptionTurn (gs : GameState) (gs2 : GameState)
    (hdrawn : gs.drawnCard = none) (h : advanceRedemptionTurn gs = some gs2) :
    cardMultiset gs2 = cardMultiset gs := by
  unfold advanceRedemptionTurn at h
  split_ifs at h with h1
  cases hro : gs.redemptionOrder with
  | none => rw [hro] at h; simp at h
  | some ro =>
    simp only [hro] at h
    split_ifs at h with h2
    · have hgs2 := (Option.some.inj h).symm
      rw [hgs2]
      unfold cardMultiset
      dsimp only
      rw [hdrawn]
    · have hgs2 := (Option.some.inj h).symm
      rw [hgs2]
      unfold cardMultiset
      dsimp only
      rw [hdrawn]

/-- The shared turn advance of the handlers conserves the card multiset
when no drawn card is in flight. -/
theorem cardMultiset_advanceAndEmitState (gs : GameState) (hdrawn : gs.drawnCard = none) :
    cardMultiset (advanceAndEmitState gs) = cardMultiset gs := by
  unfold advanceAndEmitState
  split_ifs with h1
  · cases hadv : advanceRedemptionTurn gs with
    | none => rfl
    | some gs2 => exact cardMultiset_advanceRedemptionTurn gs gs2 hdrawn hadv
  · exact cardMultiset_advanceTurn gs hdrawn

/-- Calling Red King changes no card-holding field, conserving the card
multiset. -/
theorem cardMultiset_callRedKing (gs : GameState) (pid : String) (gs2 : GameState)
    (h : callRedKing gs pid = some gs2) : cardMultiset gs2 = cardMultiset gs := by
  unfold callRedKing at h
  split_ifs at h with h1 h2 h3
  have hdrawn : gs.drawnCard = none := by
    cases hdc : gs.drawnCard with
    | none => rfl
    | some d => rw [hdc] at h3; simp at h3
  have hgs2 := (Option.some.inj h).symm
  rw [hgs2]
  unfold cardMultiset
  dsimp only
  rw [hdrawn]

/-- A blind switch permutes cards between two slots, conserving the card
multiset and leaving the drawn slot alone. -/
theorem cardMultiset_blindSwitch (gs : GameState) (pA : String) (iA : Nat) (pB : String)
    (iB : Nat) (gs2 : GameState) (h : blindSwitch gs pA iA pB iB = some gs2) :
    cardMultiset gs2 = cardMultiset gs ∧ gs2.drawnCard = gs.drawnCard := by
  cases hlkA : lookupHand gs.hands pA with
  | none =>
    simp only [blindSwitch, hlkA] at h
    simp at h
  | some hA =>
    cases hlkB : lookupHand gs.hands pB with
    | none =>
      simp only [blindSwitch, hlkA, hlkB] at h
      simp at h
    | some hB =>
      simp only [blindSwitch, hlkA, hlkB] at h
      split_ifs at h with hiA hiB
      cases hjA : (hA[iA]?).join with
      | none =>
        simp only [hjA] at h
        simp at h
      | some cA =>
        cases hjB : (hB[iB]?).join with
        | none =>
          simp only [hjA, hjB] at h
          simp at h
        | some cB =>
          simp only [hjA, hjB] at h
          have hgs2 : gs2 = { gs with
              hands := updateSlot (updateSlot gs.hands pA iA (some cB)) pB iB (some cA) } :=
            (Option.some.inj h).symm
          have holdA : hA[iA]? = some (some cA) := Option.join_eq_some.mp hjA
          have holdB : hB[iB]? = some (some cB) := Option.join_eq_some.mp hjB
          have hx1 := allHandCards_updateSlot gs.hands pA iA hA (some cA) (some cB)
            hlkA holdA
          have hx2 : (allHandCards (updateSlot (updateSlot gs.hands pA iA (some cB)) pB iB
                (some cA)) : Multiset Card)
                + (((some cB : Option Card).toList : List Card) : Multiset Card)
              = (allHandCards (updateSlot gs.hands pA iA (some cB)) : Multiset Card)
                + (((some cA : Option Card).toList : List Card) : Multiset Card) := by
            by_cases hp : pB = pA
            · subst hp
              have hAB : hA = hB := by
                rw [hlkA] at hlkB
                exact Option.some.inj hlkB
              subst hAB
              have hlk1 : lookupHand (updateSlot gs.hands pB iA (some cB)) pB
                  = some (hA.set iA (some cB)) := by
                rw [lookupHand_updateSlot_self, hlkA]
                rfl
              have hold1 : (hA.set iA (some cB))[iB]? = some (some cB) := by
                by_cases hii : iA = iB
                · subst hii
                  exact List.getElem?_set_self hiA
                · rw [List.getElem?_set_ne hii]
                  exact holdB
              exact allHandCards_updateSlot _ pB iB (hA.set iA (some cB)) (some cB)
                (some cA) hlk1 hold1
            · have hlk1 : lookupHand (updateSlot gs.hands pA iA (some cB)) pB = some hB := by
                rw [lookupHand_updateSlot_ne _ _ _ _ _ hp]
                exact hlkB
              exact allHandCards_updateSlot _ pB iB hB (some cB) (some cA) hlk1 holdB
          have hall : (allHandCards (updateSlot (updateSlot gs.hands pA iA (some cB)) pB iB
                (some cA)) : Multiset Card) = (allHandCards gs.hands : Multiset Card) := by
            have hchain : (allHandCards (updateSlot (updateSlot gs.hands pA iA (some cB)) pB
                  iB (some cA)) : Multiset Card)
                  + (((some cB : Option Card).toList : List Card) : Multiset Card)
                = (allHandCards gs.hands : Multiset Card)
                  + (((some cB : Option Card).toList : List Card) : Multiset Card) := by
              rw [hx2, hx1]
            exact add_right_cancel hchain
          refine ⟨?_, by rw [hgs2]⟩
          rw [hgs2]
          unfold cardMultiset
          dsimp only
          rw [hall]

/-- callMatchOwn conserves the card multiset in all three outcomes: a match
moves the slot card to the discard pile, a penalty moves the last deck card
into the hand, an empty-deck penalty changes nothing. -/
theorem cardMultiset_callMatchOwn (gs : GameState) (pid : String) (i : Nat)
    (r : MatchOwnResult) (gs2 : GameState) (h : callMatchOwn gs pid i = some (r, gs2)) :
    cardMultiset gs2 = cardMultiset gs := by
  cases htop : getTopDiscard gs with
  | none =>
    simp only [callMatchOwn, htop] at h
    simp at h
  | some top =>
    simp only [callMatchOwn, htop] at h
    cases hlk : lookupHand gs.hands pid with
    | none => simp only [hlk] at h; simp at h
    | some hand =>
      simp only [hlk] at h
      by_cases hi : i < hand.length
      · rw [if_pos hi] at h
        cases hjoin : (hand[i]?).join with
        | none => simp only [hjoin] at h; simp at h
        | some revealed =>
          simp only [hjoin] at h
          have hold : hand[i]? = some (some revealed) := Option.join_eq_some.mp hjoin
          by_cases hmatch : cardsMatchByRank (some revealed) (some top) = true
          · rw [if_pos hmatch] at h
            have hgs2 : gs2 = { gs with
                hands := updateSlot gs.hands pid i none,
                discardPile := gs.discardPile ++ [some revealed] } :=
              (congrArg Prod.snd (Option.some.inj h)).symm
            have hx := allHandCards_updateSlot gs.hands pid i hand (some revealed) none
              hlk hold
            rw [hgs2]
            unfold cardMultiset
            dsimp only
            rw [List.filterMap_append]
            calc (gs.deck : Multiset Card)
                + (allHandCards (updateSlot gs.hands pid i none) : Multiset Card)
                + ((gs.discardPile.filterMap id ++ [some revealed].filterMap id : List Card)
                  : Multiset Card)
                + (gs.drawnCard.toList : Multiset Card)
                = (gs.deck : Multiset Card) + (gs.discardPile.filterMap id : Multiset Card)
                  + (gs.drawnCard.toList : Multiset Card)
                  + ((allHandCards (updateSlot gs.hands pid i none) : Multiset Card)
                    + (((some revealed : Option Card).toList : List Card) : Multiset Card)) := by
                  rw [← Multiset.coe_add]
                  dsimp only [Option.toList, List.filterMap, id]
                  abel
              _ = (gs.deck : Multiset Card) + (gs.discardPile.filterMap id : Multiset Card)
                  + (gs.drawnCard.toList : Multiset Card)
                  + ((allHandCards gs.hands : Multiset Card)
                    + (((none : Option Card).toList : List Card) : Multiset Card)) := by
                  rw [hx]
              _ = (gs.deck : Multiset Card) + (allHandCards gs.hands : Multiset Card)
                  + (gs.discardPile.filterMap id : Multiset Card)
                  + (gs.drawnCard.toList : Multiset Card) := by
                  dsimp only [Option.toList]
                  abel
          · rw [if_neg hmatch] at h
            cases hlast : gs.deck.getLast? with
            | some pc =>
              simp only [hlast] at h
              have hgs2 : gs2 = { gs with
                  deck := gs.deck.dropLast,
                  hands := setHand gs.hands pid (addCardToHand hand (some pc)).1 } :=
                (congrArg Prod.snd (Option.some.inj h)).symm
              have hset := allHandCards_setHand gs.hands pid hand
                (addCardToHand hand (some pc)).1 hlk
              have hadd := handCards_addCardToHand hand (some pc)
              have hnew : (allHandCards (setHand gs.hands pid
                    (addCardToHand hand (some pc)).1) : Multiset Card)
                  = (allHandCards gs.hands : Multiset Card)
                    + (((some pc : Option Card).toList : List Card) : Multiset Card) := by
                have h1 : (allHandCards (setHand gs.hands pid
                      (addCardToHand hand (some pc)).1) : Multiset Card)
                      + (handCards hand : Multiset Card)
                    = ((allHandCards gs.hands : Multiset Card)
                      + (((some pc : Option Card).toList : List Card) : Multiset Card))
                      + (handCards hand : Multiset Card) := by
                  calc (allHandCards (setHand gs.hands pid
                        (addCardToHand hand (some pc)).1) : Multiset Card)
                      + (handCards hand : Multiset Card)
                      = (allHandCards gs.hands : Multiset Card)
                        + (handCards (addCardToHand hand (some pc)).1 : Multiset Card) :=
                      hset
                    _ = (allHandCards gs.hands : Multiset Card)
                        + ((handCards hand : Multiset Card)
                          + (((some pc : Option Card).toList : List Card) : Multiset Card)) := by
                        rw [hadd]
                    _ = ((allHandCards gs.hands : Multiset Card)
                        + (((some pc : Option Card).toList : List Card) : Multiset Card))
                        + (handCards hand : Multiset Card) := by abel
                exact add_right_cancel h1
              rw [hgs2]
              unfold cardMultiset
              dsimp only
              rw [hnew, deck_pop_multiset gs.deck pc hlast]
              dsimp only [Option.toList]
              abel
            | none =>
              simp only [hlast] at h
              have hgs2 : gs2 = gs := (congrArg Prod.snd (Option.some.inj h)).symm
              rw [hgs2]
      · rw [if_neg hi] at h
        simp at h

/-- callMatchOther conserves the card multiset: a match mutates nothing
yet, a penalty moves the last deck card into the caller's hand, an
empty-deck penalty changes nothing. -/
theorem cardMultiset_callMatchOther (gs : GameState) (pid target : String) (ti : Nat)
    (r : MatchOtherResult) (gs2 : GameState)
    (h : callMatchOther gs pid target ti = some (r, gs2)) :
    cardMultiset gs2 = cardMultiset gs := by
  cases htop : getTopDiscard gs with
  | none =>
    simp only [callMatchOther, htop] at h
    simp at h
  | some top =>
    simp only [callMatchOther, htop] at h
    cases hlkT : lookupHand gs.hands target with
    | none => simp only [hlkT] at h; simp at h
    | some targetHand =>
      simp only [hlkT] at h
      by_cases hti : ti < targetHand.length
      · rw [if_pos hti] at h
        cases hjoin : (targetHand[ti]?).join with
        | none => simp only [hjoin] at h; simp at h
        | some revealed =>
          simp only [hjoin] at h
          by_cases hmatch : cardsMatchByRank (some revealed) (some top) = true
          · rw [if_pos hmatch] at h
            have hgs2 : gs2 = gs := (congrArg Prod.snd (Option.some.inj h)).symm
            rw [hgs2]
          · rw [if_neg hmatch] at h
            cases hlkC : lookupHand gs.hands pid with
            | none => simp only [hlkC] at h; simp at h
            | some callerHand =>
              simp only [hlkC] at h
              cases hlast : gs.deck.getLast? with
              | some pc =>
                simp only [hlast] at h
                have hgs2 : gs2 = { gs with
                    deck := gs.deck.dropLast,
                    hands := setHand gs.hands pid (addCardToHand callerHand (some pc)).1 } :=
                  (congrArg Prod.snd (Option.some.inj h)).symm
                have hset := allHandCards_setHand gs.hands pid callerHand
                  (addCardToHand callerHand (some pc)).1 hlkC
                have hadd := handCards_addCardToHand callerHand (some pc)
                have hnew : (allHandCards (setHand gs.hands pid
                      (addCardToHand callerHand (some pc)).1) : Multiset Card)
                    = (allHandCards gs.hands : Multiset Card)
                      + (((some pc : Option Card).toList : List Card) : Multiset Card) := by
                  have h1 : (allHandCards (setHand gs.hands pid
                        (addCardToHand callerHand (some pc)).1) : Multiset Card)
                        + (handCards callerHand : Multiset Card)
                      = ((allHandCards gs.hands : Multiset Card)
                        + (((some pc : Option Card).toList : List Card) : Multiset Card))
                        + (handCards callerHand : Multiset Card) := by
                    calc (allHandCards (setHand gs.hands pid
                          (addCardToHand callerHand (some pc)).1) : Multiset Card)
                        + (handCards callerHand : Multiset Card)
                        = (allHandCards gs.hands : Multiset Card)
                          + (handCards (addCardToHand callerHand (some pc)).1
                            : Multiset Card) := hset
                      _ = (allHandCards gs.hands : Multiset Card)
                          + ((handCards callerHand : Multiset Card)
                            + (((some pc : Option Card).toList : List Card)
                              : Multiset Card)) := by rw [hadd]
                      _ = ((allHandCards gs.hands : Multiset Card)
                          + (((some pc : Option Card).toList : List Card) : Multiset Card))
                          + (handCards callerHand : Multiset Card) := by abel
                  exact add_right_cancel h1
                rw [hgs2]
                unfold cardMultiset
                dsimp only
                rw [hnew, deck_pop_multiset gs.deck pc hlast]
                dsimp only [Option.toList]
                abel
              | none =>
                simp only [hlast] at h
                have hgs2 : gs2 = gs := (congrArg Prod.snd (Option.some.inj h)).symm
                rw [hgs2]
      · rw [if_neg hti] at h
        simp at h

/-- giveCardAfterMatch conserves the card multiset: the matched slot's
content goes to the discard pile and the caller's slot content moves into
the target's hand. -/
theorem cardMultiset_giveCardAfterMatch (gs : GameState) (pid : String) (ci : Nat)
    (target : String) (ti : Nat) (r : GiveCardResult) (gs2 : GameState)
    (h : giveCardAfterMatch gs pid ci target ti = some (r, gs2)) :
    cardMultiset gs2 = cardMultiset gs := by
  cases hlkC : lookupHand gs.hands pid with
  | none =>
    simp only [giveCardAfterMatch, hlkC] at h
    simp at h
  | some callerHand =>
    cases hlkT : lookupHand gs.hands target with
    | none =>
      simp only [giveCardAfterMatch, hlkC, hlkT] at h
      simp at h
    | some targetHand =>
      simp only [giveCardAfterMatch, hlkC, hlkT] at h
      split_ifs at h with hci hti
      case neg =>
        cases hjC : (callerHand[ci]?).join <;> simp only [hjC] at h <;> simp at h
      cases hjC : (callerHand[ci]?).join with
      | none => simp only [hjC] at h; simp at h
      | some given0 =>
        simp only [hjC] at h
        cases hlkT2 : lookupHand (updateSlot (updateSlot gs.hands target ti none) pid ci
            none) target with
        | none => simp only [hlkT2] at h; simp at h
        | some targetHand2 =>
          simp only [hlkT2] at h
          have hgs2 : gs2 = { gs with
              hands := setHand (updateSlot (updateSlot gs.hands target ti none) pid ci none)
                target (addCardToHand targetHand2
                  (getSlot (updateSlot gs.hands target ti none) pid ci)).1,
              discardPile := gs.discardPile ++ [(targetHand[ti]?).join] } :=
            (congrArg Prod.snd (Option.some.inj h)).symm
          have hold0 : targetHand[ti]? = some targetHand[ti] :=
            List.getElem?_eq_getElem hti
          have hmatched : (targetHand[ti]?).join = targetHand[ti] := by
            rw [hold0]
            rfl
          have hx1 := allHandCards_updateSlot gs.hands target ti targetHand
            targetHand[ti] none hlkT hold0
          have hch1 : ∃ ch1, lookupHand (updateSlot gs.hands target ti none) pid = some ch1
              ∧ ci < ch1.length := by
            by_cases hp : pid = target
            · subst hp
              have haa : callerHand = targetHand := by
                rw [hlkC] at hlkT
                exact Option.some.inj hlkT
              refine ⟨targetHand.set ti none, ?_, ?_⟩
              · rw [lookupHand_updateSlot_self, hlkC, haa]
                rfl
              · rw [List.length_set, ← haa]
                exact hci
            · refine ⟨callerHand, ?_, hci⟩
              rw [lookupHand_updateSlot_ne _ _ _ _ _ hp]
              exact hlkC
          obtain ⟨ch1, hlk1, hci1⟩ := hch1
          have hold1 : ch1[ci]? = some ch1[ci] := List.getElem?_eq_getElem hci1
          have hgiven : getSlot (updateSlot gs.hands target ti none) pid ci = ch1[ci] := by
            simp only [getSlot, hlk1, hold1]
            rfl
          have hx2 := allHandCards_updateSlot (updateSlot gs.hands target ti none) pid ci
            ch1 ch1[ci] none hlk1 hold1
          have hset := allHandCards_setHand
            (updateSlot (updateSlot gs.hands target ti none) pid ci none) target targetHand2
            (addCardToHand targetHand2
              (getSlot (updateSlot gs.hands target ti none) pid ci)).1 hlkT2
          have hadd := handCards_addCardToHand targetHand2
            (getSlot (updateSlot gs.hands target ti none) pid ci)
          have hfin : (allHandCards (setHand (updateSlot (updateSlot gs.hands target ti none)
                pid ci none) target (addCardToHand targetHand2
                  (getSlot (updateSlot gs.hands target ti none) pid ci)).1) : Multiset Card)
              = (allHandCards (updateSlot (updateSlot gs.hands target ti none) pid ci none)
                  : Multiset Card)
                + ((ch1[ci] : Option Card).toList : Multiset Card) := by
            have h1 : (allHandCards (setHand (updateSlot (updateSlot gs.hands target ti none)
                  pid ci none) target (addCardToHand targetHand2
                    (getSlot (updateSlot gs.hands target ti none) pid ci)).1) : Multiset Card)
                  + (handCards targetHand2 : Multiset Card)
                = ((allHandCards (updateSlot (updateSlot gs.hands target ti none) pid ci
                    none) : Multiset Card)
                  + ((ch1[ci] : Option Card).toList : Multiset Card))
                  + (handCards targetHand2 : Multiset Card) := by
              calc (allHandCards (setHand (updateSlot (updateSlot gs.hands target ti none)
                    pid ci none) target (addCardToHand targetHand2
                      (getSlot (updateSlot gs.hands target ti none) pid ci)).1)
                    : Multiset Card)
                  + (handCards targetHand2 : Multiset Card)
                  = (allHandCards (updateSlot (updateSlot gs.hands target ti none) pid ci
                      none) : Multiset Card)
                    + (handCards (addCardToHand targetHand2
                      (getSlot (updateSlot gs.hands target ti none) pid ci)).1
                      : Multiset Card) := hset
                _ = (allHandCards (updateSlot (updateSlot gs.hands target ti none) pid ci
                      none) : Multiset Card)
                    + ((handCards targetHand2 : Multiset Card)
                      + (((getSlot (updateSlot gs.hands target ti none) pid ci).toList
                        : List Card) : Multiset Card)) := by rw [hadd]
                _ = ((allHandCards (updateSlot (updateSlot gs.hands target ti none) pid ci
                      none) : Multiset Card)
                    + ((ch1[ci] : Option Card).toList : Multiset Card))
                    + (handCards targetHand2 : Multiset Card) := by
                    rw [hgiven]
                    abel
            exact add_right_cancel h1
          have hall : (allHandCards (setHand (updateSlot (updateSlot gs.hands target ti none)
                pid ci none) target (addCardToHand targetHand2
                  (getSlot (updateSlot gs.hands target ti none) pid ci)).1) : Multiset Card)
                + ((targetHand[ti] : Option Card).toList : Multiset Card)
              = (allHandCards gs.hands : Multiset Card) := by
            rw [hfin]
            have hx2b : (allHandCards (updateSlot (updateSlot gs.hands target ti none) pid
                  ci none) : Multiset Card) + ((ch1[ci] : Option Card).toList : Multiset Card)
                = (allHandCards (updateSlot gs.hands target ti none) : Multiset Card) := by
              have := hx2
              simpa using this
            rw [hx2b]
            have hx1b : (allHandCards (updateSlot gs.hands target ti none) : Multiset Card)
                + ((targetHand[ti] : Option Card).toList : Multiset Card)
                = (allHandCards gs.hands : Multiset Card) := by
              have := hx1
              simpa using this
            exact hx1b
          rw [hgs2]
          unfold cardMultiset
          dsimp only
          rw [List.filterMap_append, hmatched]
          calc (gs.deck : Multiset Card)
              + (allHandCards (setHand (updateSlot (updateSlot gs.hands target ti none) pid
                  ci none) target (addCardToHand targetHand2
                    (getSlot (updateSlot gs.hands target ti none) pid ci)).1) : Multiset Card)
              + ((gs.discardPile.filterMap id ++ [targetHand[ti]].filterMap id : List Card)
                : Multiset Card)
              + (gs.drawnCard.toList : Multiset Card)
              = (gs.deck : Multiset Card) + (gs.discardPile.filterMap id : Multiset Card)
                + (gs.drawnCard.toList : Multiset Card)
                + ((allHandCards (setHand (updateSlot (updateSlot gs.hands target ti none)
                    pid ci none) target (addCardToHand targetHand2
                      (getSlot (updateSlot gs.hands target ti none) pid ci)).1)
                  : Multiset Card)
                  + ((targetHand[ti] : Option Card).toList : Multiset Card)) := by
                rw [← Multiset.coe_add]
                have hfm : ([targetHand[ti]].filterMap id : List Card)
                    = (targetHand[ti] : Option Card).toList := by
                  cases targetHand[ti] <;> rfl
                rw [hfm]
                abel
            _ = (gs.deck : Multiset Card) + (gs.discardPile.filterMap id : Multiset Card)
                + (gs.drawnCard.toList : Multiset Card)
                + (allHandCards gs.hands : Multiset Card) := by rw [hall]
            _ = (gs.deck : Multiset Card) + (allHandCards gs.hands : Multiset Card)
                + (gs.discardPile.filterMap id : Multiset Card)
                + (gs.drawnCard.toList : Multiset Card) := by abel

/-- A hand of real cards holds exactly those cards. -/
theorem handCards_map_some (l : List Card) : handCards (l.map some) = l := by
  induction l with
  | nil => rfl
  | cons x t ih =>
    show handCards (some x :: t.map some) = x :: t
    rw [handCards_cons, ih]
    rfl

/-- Dealing splits the shuffled deck between the hands and the remaining
deck without losing or duplicating a card. -/
theorem dealHands_multiset (players : List Player) :
    ∀ deck : List Card,
      (allHandCards (dealHands players deck).1 : Multiset Card)
        + ((dealHands players deck).2 : Multiset Card) = (deck : Multiset Card) := by
  induction players with
  | nil =>
    intro deck
    simp [dealHands, allHandCards]
  | cons p ps ih =>
    intro deck
    unfold dealHands
    dsimp only
    rw [allHandCards_cons]
    dsimp only
    rw [handCards_map_some]
    calc ((deck.take 4 ++ allHandCards (dealHands ps (deck.drop 4)).1 : List Card)
          : Multiset Card) + ((dealHands ps (deck.drop 4)).2 : Multiset Card)
        = (deck.take 4 : Multiset Card)
          + ((allHandCards (dealHands ps (deck.drop 4)).1 : Multiset Card)
            + ((dealHands ps (deck.drop 4)).2 : Multiset Card)) := by
          rw [← Multiset.coe_add]
          abel
      _ = (deck.take 4 : Multiset Card) + (deck.drop 4 : Multiset Card) := by
          rw [ih (deck.drop 4)]
      _ = ((deck.take 4 ++ deck.drop 4 : List Card) : Multiset Card) := Multiset.coe_add _ _
      _ = (deck : Multiset Card) := by rw [List.take_append_drop]

/-- C2 (amended): dealing from any permutation of the constructed deck
yields the full 54-card multiset, and every gameplay command conserves the
card multiset provided no drawn card is dropped by an out-of-protocol turn
advance: any command from a state with no drawn card in flight, and the
draw, keep, discard, match, give-card and call-red-king handlers from any
state.  Not conserved: leave-room deletes the leaver's hand, and a bare
turn-advancing command with a drawn card in flight drops that card. -/
theorem card_conservation_amended :
    (∀ (room : Room) (shuffled : List Card), shuffled.Perm createDeck →
        roomCardMultiset (dealCards room shuffled) = (createDeck : Multiset Card))
    ∧ (∀ (cmd : GameCmd) (gs : GameState), gs.drawnCard = none →
        cardMultiset (applyCmd cmd gs) = cardMultiset gs)
    ∧ (∀ (gs : GameState) (pid : String),
        cardMultiset (handleDrawCard gs pid) = cardMultiset gs)
    ∧ (∀ (gs : GameState) (pid : String) (i : Nat),
        cardMultiset (handleKeepCard gs pid i) = cardMultiset gs)
    ∧ (∀ (gs : GameState) (pid : String),
        cardMultiset (handleDiscardCard gs pid) = cardMultiset gs)
    ∧ (∀ (gs : GameState) (pid : String) (i : Nat),
        cardMultiset (handleCallMatchOwn gs pid i) = cardMultiset gs)
    ∧ (∀ (gs : GameState) (pid target : String) (i : Nat),
        cardMultiset (handleCallMatchOther gs pid target i) = cardMultiset gs)
    ∧ (∀ (gs : GameState) (pid : String) (ci : Nat) (target : String) (ti : Nat),
        cardMultiset (handleGiveCardAfterMatch gs pid ci target ti) = cardMultiset gs)
    ∧ (∀ (gs : GameState) (pid : String),
        cardMultiset (handleCallRedKing gs pid) = cardMultiset gs) := by
  have hdeal : ∀ (room : Room) (shuffled : List Card), shuffled.Perm createDeck →
      roomCardMultiset (dealCards room shuffled) = (createDeck : Multiset Card) := by
    intro room shuffled hperm
    unfold dealCards roomCardMultiset cardMultiset
    dsimp only
    have := dealHands_multiset room.players shuffled
    calc ((dealHands room.players shuffled).2 : Multiset Card)
        + (allHandCards (dealHands room.players shuffled).1 : Multiset Card)
        + ((([] : List (Option Card)).filterMap id : List Card) : Multiset Card)
        + (((none : Option Card).toList : List Card) : Multiset Card)
        = (allHandCards (dealHands room.players shuffled).1 : Multiset Card)
          + ((dealHands room.players shuffled).2 : Multiset Card) := by
          dsimp only [Option.toList, List.filterMap]
          abel
      _ = (shuffled : Multiset Card) := this
      _ = (createDeck : Multiset Card) := Multiset.coe_eq_coe.mpr hperm
  have hdraw : ∀ (gs : GameState) (pid : String),
      cardMultiset (handleDrawCard gs pid) = cardMultiset gs := by
    intro gs pid
    unfold handleDrawCard
    split_ifs with h1
    · cases hD : drawCard gs pid with
      | none => rfl
      | some res =>
        obtain ⟨c, gs2⟩ := res
        exact cardMultiset_drawCard gs pid c gs2 hD
    · rfl
  have hkeep : ∀ (gs : GameState) (pid : String) (i : Nat),
      cardMultiset (handleKeepCard gs pid i) = cardMultiset gs := by
    intro gs pid i
    unfold handleKeepCard
    cases hK : keepCard gs pid i with
    | none => rfl
    | some res =>
      obtain ⟨c, gs2⟩ := res
      obtain ⟨hcons, hdn⟩ := cardMultiset_keepCard gs pid i c gs2 hK
      rw [cardMultiset_advanceAndEmitState gs2 hdn, hcons]
  have hdiscard : ∀ (gs : GameState) (pid : String),
      cardMultiset (handleDiscardCard gs pid) = cardMultiset gs := by
    intro gs pid
    unfold handleDiscardCard
    cases hdc : gs.drawnCard with
    | none => rfl
    | some drawn =>
      cases hD : discardDrawnCard gs pid with
      | none => rfl
      | some res =>
        obtain ⟨c, gs2⟩ := res
        obtain ⟨hcons, hdn⟩ := cardMultiset_discardDrawnCard gs pid c gs2 hD
        show cardMultiset (if canUseRule drawn = true ∧ (getRuleType drawn).isSome = true
            then gs2 else advanceAndEmitState gs2) = cardMultiset gs
        split_ifs with hrule
        · exact hcons
        · rw [cardMultiset_advanceAndEmitState gs2 hdn, hcons]
  have hmo : ∀ (gs : GameState) (pid : String) (i : Nat),
      cardMultiset (handleCallMatchOwn gs pid i) = cardMultiset gs := by
    intro gs pid i
    unfold handleCallMatchOwn
    split_ifs with h1 h2
    · rfl
    · cases hM : callMatchOwn gs pid i with
      | none => rfl
      | some res =>
        obtain ⟨r, gs2⟩ := res
        exact cardMultiset_callMatchOwn gs pid i r gs2 hM
    · rfl
  have hmt : ∀ (gs : GameState) (pid target : String) (i : Nat),
      cardMultiset (handleCallMatchOther gs pid target i) = cardMultiset gs := by
    intro gs pid target i
    unfold handleCallMatchOther
    split_ifs with h1 h2 h3
    · rfl
    · rfl
    · cases hM : callMatchOther gs pid target i with
      | none => rfl
      | some res =>
        obtain ⟨r, gs2⟩ := res
        exact cardMultiset_callMatchOther gs pid target i r gs2 hM
    · rfl
  have hgive : ∀ (gs : GameState) (pid : String) (ci : Nat) (target : String) (ti : Nat),
      cardMultiset (handleGiveCardAfterMatch gs pid ci target ti) = cardMultiset gs := by
    intro gs pid ci target ti
    unfold handleGiveCardAfterMatch
    split_ifs with h1
    · rfl
    · cases hG : giveCardAfterMatch gs pid ci target ti with
      | none => rfl
      | some res =>
        obtain ⟨r, gs2⟩ := res
        exact cardMultiset_giveCardAfterMatch gs pid ci target ti r gs2 hG
  have hrk : ∀ (gs : GameState) (pid : String),
      cardMultiset (handleCallRedKing gs pid) = cardMultiset gs := by
    intro gs pid
    unfold handleCallRedKing
    split_ifs with h1
    · cases hR : callRedKing gs pid with
      | none => rfl
      | some gs2 => exact cardMultiset_callRedKing gs pid gs2 hR
    · rfl
  have hswitch : ∀ (gs : GameState) (pA : String) (iA : Nat) (pB : String) (iB : Nat),
      gs.drawnCard = none →
      cardMultiset (handleUseBlindSwitch gs pA iA pB iB) = cardMultiset gs := by
    intro gs pA iA pB iB hdn
    unfold handleUseBlindSwitch
    split_ifs with h1
    · rfl
    · cases hB : blindSwitch gs pA iA pB iB with
      | none => rfl
      | some gs2 =>
        obtain ⟨hcons, hdc⟩ := cardMultiset_blindSwitch gs pA iA pB iB gs2 hB
        rw [cardMultiset_advanceAndEmitState gs2 (hdc.trans hdn), hcons]
  have hswitch2 : ∀ (gs : GameState) (pA : String) (iA : Nat) (pB : String) (iB : Nat),
      gs.drawnCard = none →
      cardMultiset (handleUseBlackKingSwitch gs pA iA pB iB) = cardMultiset gs := by
    intro gs pA iA pB iB hdn
    unfold handleUseBlackKingSwitch
    split_ifs with h1
    · rfl
    · cases hB : blindSwitch gs pA iA pB iB with
      | none => rfl
      | some gs2 =>
        obtain ⟨hcons, hdc⟩ := cardMultiset_blindSwitch gs pA iA pB iB gs2 hB
        rw [cardMultiset_advanceAndEmitState gs2 (hdc.trans hdn), hcons]
  refine ⟨hdeal, ?_, hdraw, hkeep, hdiscard, hmo, hmt, hgive, hrk⟩
  intro cmd gs hdn
  cases cmd with
  | drawCardCmd pid => exact hdraw gs pid
  | keepCardCmd pid i => exact hkeep gs pid i
  | discardCardCmd pid => exact hdiscard gs pid
  | skipRuleCmd => exact cardMultiset_advanceAndEmitState gs hdn
  | finishPeekCmd => exact cardMultiset_advanceAndEmitState gs hdn
  | blackKingSkipCmd => exact cardMultiset_advanceAndEmitState gs hdn
  | useBlindSwitchCmd pA iA pB iB => exact hswitch gs pA iA pB iB hdn
  | useBlackKingSwitchCmd pA iA pB iB => exact hswitch2 gs pA iA pB iB hdn
  | callMatchOwnCmd pid i => exact hmo gs pid i
  | callMatchOtherCmd pid t i => exact hmt gs pid t i
  | giveCardCmd pid ci t ti => exact hgive gs pid ci t ti
  | callRedKingCmd pid => exact hrk gs pid

/-- Counterexample for C2 as stated: after dealing, the leave-room command
of player p2 destroys conservation, because the leaver's four hand cards
are deleted from play. -/
theorem card_conservation_leaveRoom_counterexample :
    roomCardMultiset dealtRoomC2 = (createDeck : Multiset Card) ∧
      (leaveRoom dealtRoomC2 "p2").map roomCardMultiset
        ≠ some ((createDeck : Multiset Card)) := by
  constructor
  · decide
  · intro hcontra
    have hcards := congrArg (Option.map Multiset.card) hcontra
    have h50 : ((leaveRoom dealtRoomC2 "p2").map roomCardMultiset).map Multiset.card
        = some 50 := by decide
    rw [h50] at hcards
    have h5054 : (50 : Nat) = Multiset.card (createDeck : Multiset Card) :=
      Option.some.inj hcards
    exact absurd h5054 (by decide)

/-- Witness for C2 (amended): dealing the unshuffled deck to the concrete
two-player room conserves all 54 cards, and a concrete command application
conserves the multiset. -/
theorem card_conservation_amended_witness :
    roomCardMultiset (dealCards roomC2 createDeck) = (createDeck : Multiset Card) ∧
      cardMultiset (applyCmd (GameCmd.drawCardCmd "p2") gsB3) = cardMultiset gsB3 :=
  ⟨card_conservation_amended.1 roomC2 createDeck (List.Perm.refl _),
   card_conservation_amended.2.1 (GameCmd.drawCardCmd "p2") gsB3 (by decide)⟩

/-- Witness for C10: the concrete wrong match on gsW10 with an empty
deck. -/
theorem callMatchOwn_emptyDeck_penalty_witness :
    callMatchOwn gsW10 "p1" 0
      = some ({ success := false, card := cardOf "clubs" "7", penaltyCard := none }, gsW10) :=
  callMatchOwn_emptyDeck_penalty gsW10 "p1" 0 [some (cardOf "clubs" "7")]
    (cardOf "clubs" "7") (cardOf "hearts" "5")
    (by decide) (by decide) (by decide) (by decide) (by decide) (by decide)

end RedKing

namespace RedKing

/-- C1 (violation): in the concrete redemption state gsB1 with protected
caller p1, the blind-switch branch of the bot rule executor swaps a card
out of p1's hand, while the guarded use-blind-switch handler refuses the
same request. -/
theorem redemption_protected_caller_violated :
    gsB1.phase = "redemption" ∧ gsB1.redKingCaller = some "p1" ∧
      lookupHand (botBlindSwitchStep gsB1 "bot-2" 0 "p1" 0).hands "p1"
        ≠ lookupHand gsB1.hands "p1" ∧
      handleUseBlindSwitch gsB1 "bot-2" 0 "p1" 0 = gsB1 := by
  decide

/-- C3 (violation): in the concrete play state gsB3 it is p2's turn, no
card is drawn and the deck is empty, yet the draw-card handler returns the
state unchanged: the draw is skipped but the turn does not advance. -/
theorem emptyDeck_draw_handler_no_advance :
    isPlayablePhase gsB3 = true ∧ getCurrentTurnPlayer gsB3 = some "p2" ∧
      gsB3.drawnCard = none ∧ gsB3.deck = [] ∧
      handleDrawCard gsB3 "p2" = gsB3 := by
  decide

/-- Counterexample for C8 as stated: joinRoom accepts an untrimmed name of
more than twenty characters. -/
theorem join_name_validation_counterexample :
    joinRoom (some roomC8) "s2" nameC8
        = JoinResult.success { roomC8 with
            players := roomC8.players ++ [{ id := "s2", name := nameC8, isHost := false }] }
      ∧ 20 < nameC8.length ∧ nameC8.data.head? = some ' ' := by
  decide

/-- C8 (amended): a successful join appends a player whose name duplicates
no existing player's name, preserving name uniqueness, and a join whose
name is already taken never succeeds; the server applies no trimming,
length or non-emptiness validation. -/
theorem join_name_uniqueness :
    (∀ (room : Room) (sid pname : String) (room2 : Room),
        joinRoom (some room) sid pname = JoinResult.success room2 →
        (∀ p ∈ room.players, p.name ≠ pname) ∧
          room2.players = room.players ++ [{ id := sid, name := pname, isHost := false }] ∧
          ((room.players.map (fun p => p.name)).Nodup →
            (room2.players.map (fun p => p.name)).Nodup))
    ∧ (∀ (room : Room) (sid pname : String),
        (∃ p ∈ room.players, p.name = pname) →
        ∀ room2, joinRoom (some room) sid pname ≠ JoinResult.success room2) := by
  constructor
  · intro room sid pname room2 h
    simp only [joinRoom] at h
    split_ifs at h with h1 h2 h3 h4
    have hnodup : ∀ p ∈ room.players, p.name ≠ pname := by
      intro p hp hname
      exact h3 (List.any_eq_true.mpr ⟨p, hp, by simp [hname]⟩)
    have hplayers : room2.players
        = room.players ++ [{ id := sid, name := pname, isHost := false }] := by
      have := JoinResult.success.inj h
      rw [← this]
    refine ⟨hnodup, hplayers, ?_⟩
    intro hnd
    rw [hplayers, List.map_append]
    rw [List.nodup_append]
    refine ⟨hnd, by simp, ?_⟩
    intro a ha hb
    simp at hb
    rw [hb] at ha
    obtain ⟨p, hp, hpn⟩ := List.mem_map.mp ha
    exact hnodup p hp hpn
  · intro room sid pname hdup room2 h
    simp only [joinRoom] at h
    split_ifs at h with h1 h2 h3 h4
    obtain ⟨p, hp, hname⟩ := hdup
    exact h3 (List.any_eq_true.mpr ⟨p, hp, by simp [hname]⟩)

/-- Witness for C8 (amended): the concrete join of Bob into Alice's room
succeeds with unique names, and a second join reusing the name Alice is
rejected. -/
theorem join_name_uniqueness_witness :
    ((∀ p ∈ roomC8.players, p.name ≠ "Bob") ∧
      roomC8b.players
        = roomC8.players ++ [{ id := "s2", name := "Bob", isHost := false }] ∧
      ((roomC8.players.map (fun p => p.name)).Nodup →
        (roomC8b.players.map (fun p => p.name)).Nodup))
    ∧ joinRoom (some roomC8) "s3" "Alice" ≠ JoinResult.success roomC8b :=
  ⟨join_name_uniqueness.1 roomC8 "s2" "Bob" roomC8b (by decide),
   join_name_uniqueness.2 roomC8 "s3" "Alice"
     ⟨{ id := "s1", name := "Alice", isHost := true }, by decide, rfl⟩ roomC8b⟩

end RedKing
